import Mathlib

/-!
# BarrierSolver (OgreMain/src/OgreResourceTransition.cpp)

A shallow embedding of `Ogre::BarrierSolver`: the per-resource status table, the
list of textures in copy layouts and the resolve, assume and reset operations,
followed by theorems about them.

Conventions of the embedding.

* A `GpuTrackedResource *` / `TextureGpu *` is a natural number (the identity of the
  object); the status map is keyed on it.
* What the solver reads from objects it does not own (`isDiscardableContent`,
  `getCurrentLayout`, `RenderSystem::isSameLayout`) comes from an `Env` that is
  an argument of every call, since those objects change outside the solver.
* `uint8` stage masks are natural numbers; `|=` on a `uint8` is `(a ||| b) % 256`.
* `OGRE_ASSERT_*` that does not hold ends the call with `Outcome.assertFailed`;
  `OGRE_EXCEPT` ends it with `Outcome.exception`, carrying the solver and the
  collection as they are at the throw.
-/

namespace Ogre

/-- The four values of `ResourceAccess::ResourceAccess`, in the order in which
`resourceAccessTable` names them. -/
inductive ResourceAccess where
  | Undefined
  | Read
  | Write
  | ReadWrite
deriving DecidableEq, Repr

namespace ResourceLayout

/-- Modelled from the spec: the declaration of `ResourceLayout::Layout` is in
`OgreResourceTransition.h`, which is not among the sources. The eight values the
solver names are constructors; `other n` stands for every further value of the
enumeration (the spec lists the values and ends the list with an ellipsis). -/
inductive Layout where
  | Undefined
  | Texture
  | Uav
  | RenderTargetReadOnly
  | CopySrc
  | CopyDst
  | CopyEnd
  | MipmapGen
  | other (n : Nat)
deriving DecidableEq, Repr

end ResourceLayout

open ResourceLayout (Layout)

/-- The struct `ResourceStatus`: what the solver believes about one resource. -/
structure ResourceStatus where
  layout : Layout
  access : ResourceAccess
  stageMask : Nat
deriving DecidableEq, Repr

/-- The struct `ResourceTransition`: one descriptor of the collection. -/
structure ResourceTransition where
  resource : Nat
  oldLayout : Layout
  newLayout : Layout
  oldAccess : ResourceAccess
  newAccess : ResourceAccess
  oldStageMask : Nat
  newStageMask : Nat
deriving DecidableEq, Repr

/-- The map `ResourceStatusMap`, from resource identity to status. -/
abbrev ResourceStatusMap := Nat → Option ResourceStatus

/-- The member `ResourceTransitionCollection::resourceTransitions`. -/
abbrev ResourceTransitionCollection := List ResourceTransition

/-- What a call reads from objects outside the solver. -/
structure Env where
  /-- The result of `texture->isDiscardableContent()`. -/
  isDiscardableContent : Nat → Bool
  /-- The result of `texture->getCurrentLayout()`. -/
  getCurrentLayout : Nat → Layout
  /-- The result of `renderSystem->isSameLayout( a, b, texture )`. -/
  isSameLayout : Layout → Layout → Nat → Bool

/-- The members of `BarrierSolver`. -/
structure BarrierSolver where
  mResourceStatus : ResourceStatusMap
  mCopyStateTextures : List Nat

/-- How a call ends. -/
inductive Outcome where
  /-- The call returned. -/
  | ok (solver : BarrierSolver) (resourceTransitions : ResourceTransitionCollection)
  /-- An `OGRE_ASSERT_*` did not hold. -/
  | assertFailed
  /-- The call threw `ERR_INVALID_STATE`; the arguments are the state at the throw. -/
  | exception (solver : BarrierSolver) (resourceTransitions : ResourceTransitionCollection)

namespace Outcome

/-- Whether the call threw `ERR_INVALID_STATE`. -/
def isException : Outcome → Bool
  | .exception _ _ => true
  | _ => false

/-- The solver a call leaves behind, when it returned or threw. -/
def solver? : Outcome → Option BarrierSolver
  | .ok solver _ => some solver
  | .assertFailed => none
  | .exception solver _ => some solver

/-- The collection a call leaves behind, when it returned or threw. -/
def log? : Outcome → Option ResourceTransitionCollection
  | .ok _ log => some log
  | .assertFailed => none
  | .exception _ log => some log

end Outcome

/-- The map with `key` bound to `status` (the effect of `insert` on an absent key,
and of assigning through `operator[]` or an iterator). -/
def ResourceStatusMap.set (m : ResourceStatusMap) (key : Nat) (status : ResourceStatus) :
    ResourceStatusMap :=
  fun k => if k = key then some status else m k

/-- The empty map. -/
def ResourceStatusMap.empty : ResourceStatusMap := fun _ => none

namespace BarrierSolver

/-- A solver as constructed: nothing tracked. -/
def new : BarrierSolver :=
  { mResourceStatus := ResourceStatusMap.empty, mCopyStateTextures := [] }

/-- The first two assertions of the texture overload: neither argument is `Undefined`. -/
def assertNotUndefined (newLayout : Layout) (access : ResourceAccess) : Bool :=
  decide (newLayout ≠ Layout.Undefined) && decide (access ≠ ResourceAccess.Undefined)

/-- The two stage mask assertions of the texture overload. -/
def assertStageMask (newLayout : Layout) (stageMask : Nat) : Bool :=
  decide (newLayout = Layout.Texture ∨ newLayout = Layout.Uav ∨ stageMask = 0) &&
  decide ((newLayout ≠ Layout.Texture ∧ newLayout ≠ Layout.Uav) ∨
          (newLayout = Layout.Texture ∧ stageMask ≠ 0) ∨
          (newLayout = Layout.Uav ∧ stageMask ≠ 0))

/-- The assertion "Invalid Layout-access pair", the same text in `resolveTransition`
and in `assumeTransition`. -/
def assertLayoutAccess (newLayout : Layout) (access : ResourceAccess) : Bool :=
  decide ((newLayout ≠ Layout.Texture ∧
           newLayout ≠ Layout.RenderTargetReadOnly ∧
           newLayout ≠ Layout.CopySrc ∧
           newLayout ≠ Layout.CopyDst ∧
           newLayout ≠ Layout.MipmapGen) ∨
          (newLayout = Layout.Texture ∧ access = ResourceAccess.Read) ∨
          (newLayout = Layout.CopySrc ∧ access = ResourceAccess.Read) ∨
          (newLayout = Layout.CopyDst ∧ access = ResourceAccess.Write) ∨
          (newLayout = Layout.MipmapGen ∧ access = ResourceAccess.ReadWrite) ∨
          (newLayout = Layout.RenderTargetReadOnly ∧ access = ResourceAccess.Read))

/-- All the assertions at the head of the texture overload of `resolveTransition`. -/
def resolveTransitionAsserts (newLayout : Layout) (access : ResourceAccess)
    (stageMask : Nat) : Bool :=
  assertNotUndefined newLayout access && assertStageMask newLayout stageMask &&
  assertLayoutAccess newLayout access

/-- The registration in `mCopyStateTextures` at the head of the texture overload. -/
def pushCopyState (mCopyStateTextures : List Nat) (texture : Nat) (newLayout : Layout) :
    List Nat :=
  if newLayout = Layout.CopySrc ∨ newLayout = Layout.CopyDst then
    if mCopyStateTextures = [] ∨ mCopyStateTextures.getLast? ≠ some texture then
      mCopyStateTextures ++ [texture]
    else mCopyStateTextures
  else mCopyStateTextures

/-- Whether the tracked branch of the texture overload emits a descriptor. -/
def needsTransition (env : Env) (tracked : ResourceStatus) (texture : Nat)
    (newLayout : Layout) (access : ResourceAccess) : Bool :=
  !env.isSameLayout tracked.layout newLayout texture ||
  (decide (newLayout = Layout.Uav) &&
    (decide (access ≠ ResourceAccess.Read) || decide (tracked.access ≠ ResourceAccess.Read)))

/-- The texture overload of `BarrierSolver::resolveTransition`. -/
def resolveTransition (env : Env) (self : BarrierSolver)
    (resourceTransitions : ResourceTransitionCollection) (texture : Nat)
    (newLayout : Layout) (access : ResourceAccess) (stageMask : Nat) : Outcome :=
  if resolveTransitionAsserts newLayout access stageMask = false then Outcome.assertFailed
  else
    let copyStateTextures := pushCopyState self.mCopyStateTextures texture newLayout
    match self.mResourceStatus texture with
    | none =>
      let status : ResourceStatus :=
        { layout := newLayout, access := access, stageMask := stageMask }
      let solver : BarrierSolver :=
        { mResourceStatus := self.mResourceStatus.set texture status,
          mCopyStateTextures := copyStateTextures }
      if env.isDiscardableContent texture = true then
        if access = ResourceAccess.Read then
          Outcome.exception solver resourceTransitions
        else
          Outcome.ok solver (resourceTransitions ++
            [{ resource := texture, oldLayout := Layout.Undefined, newLayout := newLayout,
               oldAccess := ResourceAccess.Undefined, newAccess := access,
               oldStageMask := 0, newStageMask := stageMask }])
      else
        Outcome.ok solver (resourceTransitions ++
          [{ resource := texture, oldLayout := env.getCurrentLayout texture,
             newLayout := newLayout,
             oldAccess := ResourceAccess.Undefined, newAccess := access,
             oldStageMask := 0, newStageMask := stageMask }])
    | some tracked =>
      if env.isSameLayout tracked.layout (env.getCurrentLayout texture) texture = false then
        Outcome.assertFailed
      else if needsTransition env tracked texture newLayout access = true then
        Outcome.ok
          { mResourceStatus := self.mResourceStatus.set texture
              { layout := newLayout, access := access,
                stageMask := (0 ||| stageMask) % 256 },
            mCopyStateTextures := copyStateTextures }
          (resourceTransitions ++
            [{ resource := texture, oldLayout := tracked.layout, newLayout := newLayout,
               oldAccess := tracked.access, newAccess := access,
               oldStageMask := tracked.stageMask, newStageMask := stageMask }])
      else
        Outcome.ok
          { mResourceStatus := self.mResourceStatus.set texture
              { layout := newLayout, access := access,
                stageMask := (tracked.stageMask ||| stageMask) % 256 },
            mCopyStateTextures := copyStateTextures }
          resourceTransitions

/-- The buffer overload of `BarrierSolver::resolveTransition`. -/
def resolveTransitionBuffer (self : BarrierSolver)
    (resourceTransitions : ResourceTransitionCollection) (bufferRes : Nat)
    (access : ResourceAccess) (stageMask : Nat) : Outcome :=
  if access = ResourceAccess.Undefined then Outcome.assertFailed
  else
    match self.mResourceStatus bufferRes with
    | none =>
      Outcome.ok
        { mResourceStatus := self.mResourceStatus.set bufferRes
            { layout := Layout.Undefined, access := access, stageMask := stageMask },
          mCopyStateTextures := self.mCopyStateTextures }
        resourceTransitions
    | some tracked =>
      if access ≠ ResourceAccess.Read ∨ tracked.access ≠ ResourceAccess.Read then
        Outcome.ok
          { mResourceStatus := self.mResourceStatus.set bufferRes
              { layout := tracked.layout, access := access,
                stageMask := (0 ||| stageMask) % 256 },
            mCopyStateTextures := self.mCopyStateTextures }
          (resourceTransitions ++
            [{ resource := bufferRes, oldLayout := Layout.Undefined,
               newLayout := Layout.Undefined,
               oldAccess := tracked.access, newAccess := access,
               oldStageMask := tracked.stageMask, newStageMask := stageMask }])
      else
        Outcome.ok
          { mResourceStatus := self.mResourceStatus.set bufferRes
              { layout := tracked.layout, access := access,
                stageMask := (tracked.stageMask ||| stageMask) % 256 },
            mCopyStateTextures := self.mCopyStateTextures }
          resourceTransitions

/-- The function `BarrierSolver::assumeTransition`. It takes no collection, so the
collection of the outcome is the one given, carried through untouched. -/
def assumeTransition (self : BarrierSolver)
    (resourceTransitions : ResourceTransitionCollection) (texture : Nat)
    (newLayout : Layout) (access : ResourceAccess) (stageMask : Nat) : Outcome :=
  if assertLayoutAccess newLayout access = false then Outcome.assertFailed
  else
    Outcome.ok
      { mResourceStatus := self.mResourceStatus.set texture
          { layout := newLayout, access := access, stageMask := stageMask },
        mCopyStateTextures := self.mCopyStateTextures }
      resourceTransitions

/-- The effect of `mResourceStatus.insert( first, last )` over another map: a key
already present keeps its status. -/
def insertRange (m resourceStatus : ResourceStatusMap) : ResourceStatusMap :=
  fun k => match m k with
    | some status => some status
    | none => resourceStatus k

/-- The function `BarrierSolver::assumeTransitions`. -/
def assumeTransitions (self : BarrierSolver)
    (resourceTransitions : ResourceTransitionCollection)
    (resourceStatus : ResourceStatusMap) : Outcome :=
  Outcome.ok
    { mResourceStatus := insertRange self.mResourceStatus resourceStatus,
      mCopyStateTextures := self.mCopyStateTextures }
    resourceTransitions

/-- The function `BarrierSolver::getResourceStatus`. -/
def getResourceStatus (self : BarrierSolver) : ResourceStatusMap :=
  self.mResourceStatus

/-- What the reference argument of `assumeTransitions` holds after the call: the
function only reads it, through `begin()` and `end()`. -/
def assumeTransitionsArgument (resourceStatus : ResourceStatusMap) : ResourceStatusMap :=
  resourceStatus

/-- The loop of `resetCopyLayoutsOnly` (lines 65 to 76) over the textures from
`itor` to `endt`. The calls it makes ask for `CopyEnd`, so they never add to
`mCopyStateTextures` and the iterators stay valid. An exception leaves the loop
and the function. -/
def resetCopyLayoutsOnlyLoop (env : Env) :
    List Nat → BarrierSolver → ResourceTransitionCollection → Outcome
  | [], self, resourceTransitions => Outcome.ok self resourceTransitions
  | texture :: rest, self, resourceTransitions =>
    if env.getCurrentLayout texture = Layout.CopySrc ∨
        env.getCurrentLayout texture = Layout.CopyDst then
      match resolveTransition env self resourceTransitions texture Layout.CopyEnd
          ResourceAccess.Read 0 with
      | Outcome.ok solver log => resetCopyLayoutsOnlyLoop env rest solver log
      | Outcome.assertFailed => Outcome.assertFailed
      | Outcome.exception solver log => Outcome.exception solver log
    else resetCopyLayoutsOnlyLoop env rest self resourceTransitions

/-- The function `BarrierSolver::resetCopyLayoutsOnly`. -/
def resetCopyLayoutsOnly (env : Env) (self : BarrierSolver)
    (resourceTransitions : ResourceTransitionCollection) : Outcome :=
  match resetCopyLayoutsOnlyLoop env self.mCopyStateTextures self resourceTransitions with
  | Outcome.ok solver log =>
    Outcome.ok { mResourceStatus := solver.mResourceStatus, mCopyStateTextures := [] } log
  | Outcome.assertFailed => Outcome.assertFailed
  | Outcome.exception solver log => Outcome.exception solver log

/-- The loop of `reset` (lines 86 to 97), written out in the source a second time. -/
def resetLoop (env : Env) :
    List Nat → BarrierSolver → ResourceTransitionCollection → Outcome
  | [], self, resourceTransitions => Outcome.ok self resourceTransitions
  | texture :: rest, self, resourceTransitions =>
    if env.getCurrentLayout texture = Layout.CopySrc ∨
        env.getCurrentLayout texture = Layout.CopyDst then
      match resolveTransition env self resourceTransitions texture Layout.CopyEnd
          ResourceAccess.Read 0 with
      | Outcome.ok solver log => resetLoop env rest solver log
      | Outcome.assertFailed => Outcome.assertFailed
      | Outcome.exception solver log => Outcome.exception solver log
    else resetLoop env rest self resourceTransitions

/-- The function `BarrierSolver::reset`. -/
def reset (env : Env) (self : BarrierSolver)
    (resourceTransitions : ResourceTransitionCollection) : Outcome :=
  match resetLoop env self.mCopyStateTextures self resourceTransitions with
  | Outcome.ok _ log =>
    Outcome.ok { mResourceStatus := ResourceStatusMap.empty, mCopyStateTextures := [] } log
  | Outcome.assertFailed => Outcome.assertFailed
  | Outcome.exception solver log => Outcome.exception solver log

end BarrierSolver

/-! ## Sequences of calls -/

/-- Resolving the buffer `bufferRes` once for each element of `uses` (an access and
a stage mask), in order; a call that does not return ends the sequence. -/
def resolveBufferUses (bufferRes : Nat) :
    List (ResourceAccess × Nat) → BarrierSolver → ResourceTransitionCollection → Outcome
  | [], self, resourceTransitions => Outcome.ok self resourceTransitions
  | use :: rest, self, resourceTransitions =>
    match BarrierSolver.resolveTransitionBuffer self resourceTransitions bufferRes
        use.1 use.2 with
    | Outcome.ok solver log => resolveBufferUses bufferRes rest solver log
    | Outcome.assertFailed => Outcome.assertFailed
    | Outcome.exception solver log => Outcome.exception solver log

/-- The number of adjacent pairs of a list of accesses that are not both `Read`. -/
def notBothRead : List ResourceAccess → Nat
  | a :: b :: rest =>
    (if a = ResourceAccess.Read ∧ b = ResourceAccess.Read then 0 else 1) +
      notBothRead (b :: rest)
  | _ => 0

/-- Resolving each texture of a list in turn with the same arguments, under the
same `env`; a call that does not return ends the sequence. -/
def resolveEach (env : Env) (newLayout : Layout) (access : ResourceAccess)
    (stageMask : Nat) :
    List Nat → BarrierSolver → ResourceTransitionCollection → Outcome
  | [], self, resourceTransitions => Outcome.ok self resourceTransitions
  | texture :: rest, self, resourceTransitions =>
    match BarrierSolver.resolveTransition env self resourceTransitions texture
        newLayout access stageMask with
    | Outcome.ok solver log => resolveEach env newLayout access stageMask rest solver log
    | Outcome.assertFailed => Outcome.assertFailed
    | Outcome.exception solver log => Outcome.exception solver log

/-- Clearing `mCopyStateTextures` after a call that returned. -/
def Outcome.thenClearCopyState : Outcome → Outcome
  | .ok solver log =>
    .ok { mResourceStatus := solver.mResourceStatus, mCopyStateTextures := [] } log
  | .assertFailed => .assertFailed
  | .exception solver log => .exception solver log

/-- Clearing `mResourceStatus` after a call that returned. -/
def Outcome.thenClearResourceStatus : Outcome → Outcome
  | .ok solver log =>
    .ok { mResourceStatus := ResourceStatusMap.empty,
          mCopyStateTextures := solver.mCopyStateTextures } log
  | .assertFailed => .assertFailed
  | .exception solver log => .exception solver log

/-- The table of layouts and the access each one requires, as the specification
words it: `Texture`, `CopySrc` and `RenderTargetReadOnly` require `Read`,
`CopyDst` requires `Write`, `MipmapGen` requires `ReadWrite`, every other layout
accepts any access. -/
def legalLayoutAccess : Layout → ResourceAccess → Bool
  | Layout.Texture, access => decide (access = ResourceAccess.Read)
  | Layout.CopySrc, access => decide (access = ResourceAccess.Read)
  | Layout.RenderTargetReadOnly, access => decide (access = ResourceAccess.Read)
  | Layout.CopyDst, access => decide (access = ResourceAccess.Write)
  | Layout.MipmapGen, access => decide (access = ResourceAccess.ReadWrite)
  | _, _ => true

/-- One call on the solver, with its arguments and, for the calls that read
objects outside the solver, what they read. -/
inductive Call where
  | resolveTexture (env : Env) (texture : Nat) (newLayout : Layout)
      (access : ResourceAccess) (stageMask : Nat)
  | resolveBuffer (bufferRes : Nat) (access : ResourceAccess) (stageMask : Nat)
  | assumeTransition (texture : Nat) (newLayout : Layout) (access : ResourceAccess)
      (stageMask : Nat)
  | assumeTransitions (resourceStatus : ResourceStatusMap)
  | resetCopyLayoutsOnly (env : Env)
  | reset (env : Env)

namespace Call

/-- Making the call. -/
def run : Call → BarrierSolver → ResourceTransitionCollection → Outcome
  | resolveTexture env texture newLayout access stageMask, self, log =>
    BarrierSolver.resolveTransition env self log texture newLayout access stageMask
  | resolveBuffer bufferRes access stageMask, self, log =>
    BarrierSolver.resolveTransitionBuffer self log bufferRes access stageMask
  | assumeTransition texture newLayout access stageMask, self, log =>
    BarrierSolver.assumeTransition self log texture newLayout access stageMask
  | assumeTransitions resourceStatus, self, log =>
    BarrierSolver.assumeTransitions self log resourceStatus
  | resetCopyLayoutsOnly env, self, log => BarrierSolver.resetCopyLayoutsOnly env self log
  | reset env, self, log => BarrierSolver.reset env self log

/-- What a call may add to the collection: a `resolveTransition` at most one
descriptor, naming its resource; an assume call nothing; a reset anything. -/
def emits : Call → List ResourceTransition → Prop
  | resolveTexture _ texture _ _ _, added =>
    added.length ≤ 1 ∧ ∀ resTrans ∈ added, resTrans.resource = texture
  | resolveBuffer bufferRes _ _, added =>
    added.length ≤ 1 ∧ ∀ resTrans ∈ added, resTrans.resource = bufferRes
  | assumeTransition _ _ _ _, added => added = []
  | assumeTransitions _, added => added = []
  | resetCopyLayoutsOnly _, _ => True
  | reset _, _ => True

/-- Every call but `assumeTransitions`. -/
def notAssumeTransitions : Call → Prop
  | assumeTransitions _ => False
  | _ => True

/-- The texture overload of `resolveTransition` with a stage mask of 8 bits, and
the two resets. -/
def textureOrReset : Call → Prop
  | resolveTexture _ _ _ _ stageMask => stageMask < 256
  | resetCopyLayoutsOnly _ => True
  | reset _ => True
  | _ => False

/-- What the call reads from outside the solver, when it reads anything. -/
def env? : Call → Option Env
  | resolveTexture env _ _ _ _ => some env
  | resetCopyLayoutsOnly env => some env
  | reset env => some env
  | _ => none

end Call

/-- Making the calls of a list in order; a call that does not return ends the
sequence. -/
def runCalls : List Call → BarrierSolver → ResourceTransitionCollection → Outcome
  | [], self, log => Outcome.ok self log
  | call :: rest, self, log =>
    match call.run self log with
    | Outcome.ok solver log' => runCalls rest solver log'
    | Outcome.assertFailed => Outcome.assertFailed
    | Outcome.exception solver log' => Outcome.exception solver log'

/-- The solvers that calls satisfying `allowed` lead to from a new solver, each call
made with any collection; a call that threw leaves the solver as it was at the
throw. -/
inductive Reachable (allowed : Call → Prop) : BarrierSolver → Prop where
  | new : Reachable allowed BarrierSolver.new
  | returned (call : Call) (self solver : BarrierSolver)
      (log log' : ResourceTransitionCollection) :
      Reachable allowed self → allowed call →
      call.run self log = Outcome.ok solver log' → Reachable allowed solver
  | threw (call : Call) (self solver : BarrierSolver)
      (log log' : ResourceTransitionCollection) :
      Reachable allowed self → allowed call →
      call.run self log = Outcome.exception solver log' → Reachable allowed solver

/-- A backend that never holds a layout among `Texture` and `Uav` to be the same as
a layout outside them. -/
def Env.separatesStageLayouts (env : Env) : Prop :=
  ∀ a b texture, env.isSameLayout a b texture = true →
    ((a = Layout.Texture ∨ a = Layout.Uav) ↔ (b = Layout.Texture ∨ b = Layout.Uav))

/-! ## Concrete inputs -/

/-- A backend for which two layouts are the same only when they are equal; every
texture keeps its content and is currently in layout `Texture`. -/
def plainEnv : Env :=
  { isDiscardableContent := fun _ => false,
    getCurrentLayout := fun _ => Layout.Texture,
    isSameLayout := fun a b _ => decide (a = b) }

/-- As `plainEnv`, with every texture discardable. -/
def discardEnv : Env :=
  { isDiscardableContent := fun _ => true,
    getCurrentLayout := fun _ => Layout.Texture,
    isSameLayout := fun a b _ => decide (a = b) }

/-- A backend for which all layouts are the same; every texture is currently in
layout `Uav`. -/
def lenientEnv : Env :=
  { isDiscardableContent := fun _ => false,
    getCurrentLayout := fun _ => Layout.Uav,
    isSameLayout := fun _ _ _ => true }

/-- A solver tracking resource 7 as sampled texture read by stage 1. -/
def sampledSolver : BarrierSolver :=
  { mResourceStatus := ResourceStatusMap.empty.set 7
      { layout := Layout.Texture, access := ResourceAccess.Read, stageMask := 1 },
    mCopyStateTextures := [] }

/-- A solver tracking resource 7 as a Uav read by stage 4. -/
def uavSolver : BarrierSolver :=
  { mResourceStatus := ResourceStatusMap.empty.set 7
      { layout := Layout.Uav, access := ResourceAccess.Read, stageMask := 4 },
    mCopyStateTextures := [] }

/-- A solver tracking buffer 3 with a write by stage 2. -/
def bufferSolver : BarrierSolver :=
  { mResourceStatus := ResourceStatusMap.empty.set 3
      { layout := Layout.Undefined, access := ResourceAccess.Write, stageMask := 2 },
    mCopyStateTextures := [] }

/-- A backend for which two layouts are the same only when they are equal; texture
7 is currently in layout `CopySrc`, every other texture in `CopyDst`. -/
def copyEnv : Env :=
  { isDiscardableContent := fun _ => false,
    getCurrentLayout := fun t => if t = 7 then Layout.CopySrc else Layout.CopyDst,
    isSameLayout := fun a b _ => decide (a = b) }

/-- A solver tracking texture 7 as a copy source, texture 8 as a copy destination
and buffer 3 as written by stage 2, with both textures registered. -/
def copySolver : BarrierSolver :=
  { mResourceStatus := ((ResourceStatusMap.empty.set 3
        { layout := Layout.Undefined, access := ResourceAccess.Write, stageMask := 2 }).set 7
        { layout := Layout.CopySrc, access := ResourceAccess.Read, stageMask := 0 }).set 8
        { layout := Layout.CopyDst, access := ResourceAccess.Write, stageMask := 0 },
    mCopyStateTextures := [7, 8] }

/-- A backend for which all layouts are the same; texture 7 is currently in layout
`Texture`, every other texture in `CopySrc`. -/
def mixedEnv : Env :=
  { isDiscardableContent := fun _ => false,
    getCurrentLayout := fun t => if t = 7 then Layout.Texture else Layout.CopySrc,
    isSameLayout := fun _ _ _ => true }

/-- A solver with textures 7 and 8 registered: 7 has since become a sampled texture
read by stage 1 (`resolveTransition` to `CopySrc`, then to `Texture`), 8 is tracked
as a copy source with stage mask 3 (`assumeTransition` with that mask, then
`resolveTransition` to `CopySrc` on a backend that holds all layouts the same). -/
def mixedSolver : BarrierSolver :=
  { mResourceStatus := (ResourceStatusMap.empty.set 7
        { layout := Layout.Texture, access := ResourceAccess.Read, stageMask := 1 }).set 8
        { layout := Layout.CopySrc, access := ResourceAccess.Read, stageMask := 3 },
    mCopyStateTextures := [7, 8] }

/-! ## Theorems -/

namespace BarrierSolver

theorem set_self (m : ResourceStatusMap) (key : Nat) (status : ResourceStatus) :
    m.set key status key = some status := by
  simp [ResourceStatusMap.set]

theorem set_other (m : ResourceStatusMap) (key k : Nat) (status : ResourceStatus)
    (h : k ≠ key) : m.set key status k = m k := by
  simp [ResourceStatusMap.set, h]

theorem or_mod_uint8 (a b : Nat) (ha : a < 256) (hb : b < 256) :
    (a ||| b) % 256 = a ||| b := by
  apply Nat.mod_eq_of_lt
  exact Nat.or_lt_two_pow (n := 8) ha hb

theorem zero_or_mod_uint8 (b : Nat) (hb : b < 256) : (0 ||| b) % 256 = b := by
  simp [Nat.mod_eq_of_lt hb]

/-- C1: first use of a texture (no entry in the status map), with arguments that
pass the assertions and a call that does not throw: the call returns, the
collection gains exactly one descriptor, whose old layout is `Undefined` for a
discardable texture and the texture's current layout otherwise, whose old access is
`Undefined` and old stage mask 0, and whose new fields are the arguments; the
status map gains the entry of the arguments for the texture. -/
theorem resolveTransition_first_use (env : Env) (self : BarrierSolver)
    (log : ResourceTransitionCollection) (texture : Nat) (newLayout : Layout)
    (access : ResourceAccess) (stageMask : Nat)
    (hvalid : resolveTransitionAsserts newLayout access stageMask = true)
    (hnone : self.mResourceStatus texture = none)
    (hok : (resolveTransition env self log texture newLayout access stageMask).isException
      = false) :
    ∃ solver, resolveTransition env self log texture newLayout access stageMask =
        Outcome.ok solver (log ++
          [{ resource := texture,
             oldLayout := if env.isDiscardableContent texture = true then Layout.Undefined
                          else env.getCurrentLayout texture,
             newLayout := newLayout,
             oldAccess := ResourceAccess.Undefined, newAccess := access,
             oldStageMask := 0, newStageMask := stageMask }]) ∧
      solver.mResourceStatus = self.mResourceStatus.set texture
        { layout := newLayout, access := access, stageMask := stageMask } := by
  unfold resolveTransition at hok ⊢
  simp only [hvalid, hnone] at hok ⊢
  by_cases hd : env.isDiscardableContent texture = true
  · by_cases ha : access = ResourceAccess.Read
    · simp [hd, ha, Outcome.isException] at hok
    · simp [hd, ha]
  · simp [hd]

theorem resolveTransition_first_use_witness :
    ∃ solver, resolveTransition discardEnv BarrierSolver.new [] 7 Layout.Uav
        ResourceAccess.Write 5 =
        Outcome.ok solver ([] ++
          [{ resource := 7,
             oldLayout := if discardEnv.isDiscardableContent 7 = true then Layout.Undefined
                          else discardEnv.getCurrentLayout 7,
             newLayout := Layout.Uav,
             oldAccess := ResourceAccess.Undefined, newAccess := ResourceAccess.Write,
             oldStageMask := 0, newStageMask := 5 }]) ∧
      solver.mResourceStatus = BarrierSolver.new.mResourceStatus.set 7
        { layout := Layout.Uav, access := ResourceAccess.Write, stageMask := 5 } :=
  resolveTransition_first_use discardEnv BarrierSolver.new [] 7 Layout.Uav
    ResourceAccess.Write 5 (by decide) rfl rfl

/-- C2: a texture with the entry `tracked` and arguments that pass the
assertions (those at the head of the call and the one on the texture's current
layout): the call returns, and either the backend does not hold the tracked and
the new layout to be the same, or the new layout is `Uav` with the tracked or the
new access not `Read`, and the collection gains exactly the descriptor from
`tracked` to the arguments; or neither is so and the collection is as it was. -/
theorem resolveTransition_tracked (env : Env) (self : BarrierSolver)
    (log : ResourceTransitionCollection) (texture : Nat) (newLayout : Layout)
    (access : ResourceAccess) (stageMask : Nat) (tracked : ResourceStatus)
    (hvalid : resolveTransitionAsserts newLayout access stageMask = true)
    (hsome : self.mResourceStatus texture = some tracked)
    (hcurrent :
      env.isSameLayout tracked.layout (env.getCurrentLayout texture) texture = true) :
    ∃ solver log', resolveTransition env self log texture newLayout access stageMask =
        Outcome.ok solver log' ∧
      (((env.isSameLayout tracked.layout newLayout texture = false ∨
          (newLayout = Layout.Uav ∧
            (tracked.access ≠ ResourceAccess.Read ∨ access ≠ ResourceAccess.Read))) ∧
        log' = log ++
          [{ resource := texture, oldLayout := tracked.layout, newLayout := newLayout,
             oldAccess := tracked.access, newAccess := access,
             oldStageMask := tracked.stageMask, newStageMask := stageMask }]) ∨
       (¬ (env.isSameLayout tracked.layout newLayout texture = false ∨
          (newLayout = Layout.Uav ∧
            (tracked.access ≠ ResourceAccess.Read ∨ access ≠ ResourceAccess.Read))) ∧
        log' = log)) := by
  unfold resolveTransition
  simp only [hvalid, hsome, hcurrent]
  by_cases hn : needsTransition env tracked texture newLayout access = true
  · refine ⟨_, _, by simp only [hn]; rfl, Or.inl ⟨?_, rfl⟩⟩
    simp only [needsTransition, Bool.or_eq_true, Bool.and_eq_true, Bool.not_eq_true',
      decide_eq_true_eq] at hn
    tauto
  · refine ⟨_, _, by simp only [hn]; rfl, Or.inr ⟨?_, rfl⟩⟩
    simp only [needsTransition, Bool.or_eq_true, Bool.and_eq_true, Bool.not_eq_true',
      decide_eq_true_eq] at hn
    tauto

theorem resolveTransition_tracked_witness :
    ∃ solver log', resolveTransition plainEnv sampledSolver [] 7 Layout.Uav
        ResourceAccess.Read 2 = Outcome.ok solver log' ∧
      (((plainEnv.isSameLayout Layout.Texture Layout.Uav 7 = false ∨
          (Layout.Uav = Layout.Uav ∧
            (ResourceAccess.Read ≠ ResourceAccess.Read ∨
              ResourceAccess.Read ≠ ResourceAccess.Read))) ∧
        log' = [] ++
          [{ resource := 7, oldLayout := Layout.Texture, newLayout := Layout.Uav,
             oldAccess := ResourceAccess.Read, newAccess := ResourceAccess.Read,
             oldStageMask := 1, newStageMask := 2 }]) ∨
       (¬ (plainEnv.isSameLayout Layout.Texture Layout.Uav 7 = false ∨
          (Layout.Uav = Layout.Uav ∧
            (ResourceAccess.Read ≠ ResourceAccess.Read ∨
              ResourceAccess.Read ≠ ResourceAccess.Read))) ∧
        log' = [])) :=
  resolveTransition_tracked plainEnv sampledSolver [] 7 Layout.Uav ResourceAccess.Read 2
    { layout := Layout.Texture, access := ResourceAccess.Read, stageMask := 1 }
    (by decide) rfl rfl

/-- C3, as stated, fails: with resource 7 tracked as a sampled texture read by stage
1, resolving it again as a sampled texture read by stage 2 on a backend that holds
equal layouts to be the same returns with the stage mask 3, not 2. -/
theorem resolveTransition_mask_not_requested :
    ¬ ∀ (env : Env) (self : BarrierSolver) (log : ResourceTransitionCollection)
        (texture : Nat) (newLayout : Layout) (access : ResourceAccess) (stageMask : Nat)
        (solver : BarrierSolver) (log' : ResourceTransitionCollection),
        resolveTransitionAsserts newLayout access stageMask = true →
        resolveTransition env self log texture newLayout access stageMask =
          Outcome.ok solver log' →
        solver.mResourceStatus texture =
          some { layout := newLayout, access := access, stageMask := stageMask } := by
  intro h
  have h3 := h plainEnv sampledSolver [] 7 Layout.Texture ResourceAccess.Read 2 _ _
    (by decide) rfl
  revert h3
  decide

/-- C3, amended: when the call returns, the entry of the texture has the requested
layout and access; its stage mask is the requested one when the texture had no
entry or a descriptor was appended, and the bitwise or of the tracked and the
requested mask when the texture had an entry and nothing was appended (masks of 8
bits). -/
theorem resolveTransition_entry (env : Env) (self : BarrierSolver)
    (log : ResourceTransitionCollection) (texture : Nat) (newLayout : Layout)
    (access : ResourceAccess) (stageMask : Nat)
    (solver : BarrierSolver) (log' : ResourceTransitionCollection)
    (hvalid : resolveTransitionAsserts newLayout access stageMask = true)
    (hmask : stageMask < 256)
    (hok : resolveTransition env self log texture newLayout access stageMask =
      Outcome.ok solver log') :
    ∃ mask, solver.mResourceStatus texture =
        some { layout := newLayout, access := access, stageMask := mask } ∧
      ((self.mResourceStatus texture = none ∨ log' ≠ log) → mask = stageMask) ∧
      (∀ tracked, self.mResourceStatus texture = some tracked →
        tracked.stageMask < 256 → log' = log → mask = tracked.stageMask ||| stageMask) := by
  unfold resolveTransition at hok
  simp only [hvalid, Bool.true_eq_false, if_false] at hok
  cases hst : self.mResourceStatus texture with
  | none =>
    simp only [hst] at hok
    refine ⟨stageMask, ?_, fun _ => rfl, fun tracked ht => by simp at ht⟩
    by_cases hd : env.isDiscardableContent texture = true
    · by_cases ha : access = ResourceAccess.Read
      · simp [hd, ha] at hok
      · simp only [hd, ha, ↓reduceIte, Outcome.ok.injEq] at hok
        rw [← hok.1]
        exact set_self _ _ _
    · simp only [hd, Bool.false_eq_true, ↓reduceIte, Outcome.ok.injEq] at hok
      rw [← hok.1]
      exact set_self _ _ _
  | some tracked =>
    simp only [hst] at hok
    by_cases hc :
        env.isSameLayout tracked.layout (env.getCurrentLayout texture) texture = false
    · simp [hc] at hok
    · by_cases hn : needsTransition env tracked texture newLayout access = true
      · simp only [hc, hn, Bool.true_eq_false, ↓reduceIte, Outcome.ok.injEq] at hok
        refine ⟨stageMask, ?_, fun _ => rfl, ?_⟩
        · rw [← hok.1]
          simp only [set_self, zero_or_mod_uint8 stageMask hmask]
        · intro t _ _ hlog
          rw [← hok.2] at hlog
          simp at hlog
      · simp only [hc, hn, Bool.true_eq_false, Bool.false_eq_true, ↓reduceIte,
          Outcome.ok.injEq] at hok
        refine ⟨(tracked.stageMask ||| stageMask) % 256, ?_, ?_, ?_⟩
        · rw [← hok.1]
          simp only [set_self]
        · intro h
          rcases h with h | h
          · simp at h
          · exact absurd hok.2.symm h
        · intro t ht hlt _
          simp only [Option.some.injEq] at ht
          subst ht
          exact or_mod_uint8 _ _ hlt hmask

theorem resolveTransition_entry_witness :
    ∃ mask, (sampledSolver.mResourceStatus.set 7
        { layout := Layout.Texture, access := ResourceAccess.Read,
          stageMask := (1 ||| 2) % 256 }) 7 =
        some { layout := Layout.Texture, access := ResourceAccess.Read, stageMask := mask } ∧
      ((sampledSolver.mResourceStatus 7 = none ∨
          ([] : ResourceTransitionCollection) ≠ []) → mask = 2) ∧
      (∀ tracked, sampledSolver.mResourceStatus 7 = some tracked →
        tracked.stageMask < 256 → ([] : ResourceTransitionCollection) = [] →
        mask = tracked.stageMask ||| 2) :=
  resolveTransition_entry plainEnv sampledSolver [] 7 Layout.Texture ResourceAccess.Read 2
    { mResourceStatus := sampledSolver.mResourceStatus.set 7
        { layout := Layout.Texture, access := ResourceAccess.Read,
          stageMask := (1 ||| 2) % 256 },
      mCopyStateTextures := [] } [] (by decide) (by decide) rfl

/-- C4: for a resource with an entry whose stage mask is `M` (masks of 8 bits,
arguments passing the assertions), each overload of `resolveTransition` returns,
and either the collection is as it was and the stage mask of the entry is
`M ||| stageMask`, or the collection gained one descriptor and the stage mask of
the entry is `stageMask`. -/
theorem resolveTransition_stageMask (self : BarrierSolver)
    (log : ResourceTransitionCollection) (resource : Nat) (access : ResourceAccess)
    (stageMask : Nat) (tracked : ResourceStatus)
    (hsome : self.mResourceStatus resource = some tracked)
    (hM : tracked.stageMask < 256) (hmask : stageMask < 256)
    (haccess : access ≠ ResourceAccess.Undefined) :
    (∀ (env : Env) (newLayout : Layout),
      resolveTransitionAsserts newLayout access stageMask = true →
      env.isSameLayout tracked.layout (env.getCurrentLayout resource) resource = true →
      ∃ solver log' status,
        resolveTransition env self log resource newLayout access stageMask =
          Outcome.ok solver log' ∧
        solver.mResourceStatus resource = some status ∧
        ((log' = log ∧ status.stageMask = tracked.stageMask ||| stageMask) ∨
         (∃ resTrans, log' = log ++ [resTrans] ∧ status.stageMask = stageMask))) ∧
    (∃ solver log' status,
        resolveTransitionBuffer self log resource access stageMask =
          Outcome.ok solver log' ∧
        solver.mResourceStatus resource = some status ∧
        ((log' = log ∧ status.stageMask = tracked.stageMask ||| stageMask) ∨
         (∃ resTrans, log' = log ++ [resTrans] ∧ status.stageMask = stageMask))) := by
  constructor
  · intro env newLayout hvalid hcurrent
    unfold resolveTransition
    simp only [hvalid, hsome, hcurrent, Bool.true_eq_false, ↓reduceIte]
    by_cases hn : needsTransition env tracked resource newLayout access = true
    · simp only [hn, ↓reduceIte]
      exact ⟨_, _, _, rfl, set_self _ _ _,
        Or.inr ⟨_, rfl, zero_or_mod_uint8 stageMask hmask⟩⟩
    · simp only [hn, Bool.false_eq_true, ↓reduceIte]
      exact ⟨_, _, _, rfl, set_self _ _ _, Or.inl ⟨rfl, or_mod_uint8 _ _ hM hmask⟩⟩
  · unfold resolveTransitionBuffer
    simp only [haccess, hsome, ↓reduceIte]
    by_cases hn : access ≠ ResourceAccess.Read ∨ tracked.access ≠ ResourceAccess.Read
    · simp only [hn, ↓reduceIte]
      exact ⟨_, _, _, rfl, set_self _ _ _,
        Or.inr ⟨_, rfl, zero_or_mod_uint8 stageMask hmask⟩⟩
    · simp only [hn, ↓reduceIte]
      exact ⟨_, _, _, rfl, set_self _ _ _, Or.inl ⟨rfl, or_mod_uint8 _ _ hM hmask⟩⟩

theorem resolveTransition_stageMask_witness :
    ∃ solver log' status,
      resolveTransition plainEnv sampledSolver [] 7 Layout.Texture ResourceAccess.Read 2 =
        Outcome.ok solver log' ∧
      solver.mResourceStatus 7 = some status ∧
      ((log' = [] ∧ status.stageMask = 1 ||| 2) ∨
       (∃ resTrans, log' = [] ++ [resTrans] ∧ status.stageMask = 2)) :=
  (resolveTransition_stageMask sampledSolver [] 7 ResourceAccess.Read 2
    { layout := Layout.Texture, access := ResourceAccess.Read, stageMask := 1 }
    rfl (by decide) (by decide) (by decide)).1 plainEnv Layout.Texture (by decide) rfl

/-- C5: with arguments that pass the assertions, the texture overload of
`resolveTransition` throws exactly when the texture has no entry, is discardable
and the requested access is `Read`; the buffer overload, `assumeTransition` and
`assumeTransitions` never throw, and `getResourceStatus` returns the status map. -/
theorem exception_iff :
    (∀ (env : Env) (self : BarrierSolver) (log : ResourceTransitionCollection)
        (texture : Nat) (newLayout : Layout) (access : ResourceAccess) (stageMask : Nat),
        resolveTransitionAsserts newLayout access stageMask = true →
        ((resolveTransition env self log texture newLayout access stageMask).isException
            = true ↔
          (self.mResourceStatus texture = none ∧ env.isDiscardableContent texture = true ∧
            access = ResourceAccess.Read))) ∧
    (∀ (self : BarrierSolver) (log : ResourceTransitionCollection) (bufferRes : Nat)
        (access : ResourceAccess) (stageMask : Nat),
        (resolveTransitionBuffer self log bufferRes access stageMask).isException = false) ∧
    (∀ (self : BarrierSolver) (log : ResourceTransitionCollection) (texture : Nat)
        (newLayout : Layout) (access : ResourceAccess) (stageMask : Nat),
        (assumeTransition self log texture newLayout access stageMask).isException = false) ∧
    (∀ (self : BarrierSolver) (log : ResourceTransitionCollection)
        (resourceStatus : ResourceStatusMap),
        (assumeTransitions self log resourceStatus).isException = false) ∧
    (∀ (self : BarrierSolver), getResourceStatus self = self.mResourceStatus) := by
  refine ⟨?_, ?_, ?_, ?_, fun _ => rfl⟩
  · intro env self log texture newLayout access stageMask hvalid
    unfold resolveTransition
    simp only [hvalid, Bool.true_eq_false, ↓reduceIte]
    cases hst : self.mResourceStatus texture with
    | none =>
      by_cases hd : env.isDiscardableContent texture = true
      · by_cases ha : access = ResourceAccess.Read
        · simp [hd, ha, Outcome.isException]
        · simp [hd, ha, Outcome.isException]
      · simp [hd, Outcome.isException]
    | some tracked =>
      simp only [reduceCtorEq, false_and, iff_false, Bool.not_eq_true]
      split
      · rfl
      · split <;> rfl
  · intro self log bufferRes access stageMask
    unfold resolveTransitionBuffer
    split
    · rfl
    · split
      · rfl
      · split <;> rfl
  · intro self log texture newLayout access stageMask
    unfold assumeTransition
    split <;> rfl
  · intro self log resourceStatus
    rfl

theorem exception_iff_witness :
    (resolveTransition discardEnv BarrierSolver.new [] 7 Layout.RenderTargetReadOnly
      ResourceAccess.Read 0).isException = true :=
  (exception_iff.1 discardEnv BarrierSolver.new [] 7 Layout.RenderTargetReadOnly
    ResourceAccess.Read 0 (by decide)).2 ⟨rfl, rfl, rfl⟩

/-- C6, as stated, fails: on a new solver, resolving the discardable texture 7 to
`CopySrc` with `Read` throws, and at the throw the texture is in
`mCopyStateTextures` and has an entry in the status map. -/
theorem resolveTransition_exception_mutates :
    ¬ ∀ (env : Env) (self : BarrierSolver) (log : ResourceTransitionCollection)
        (texture : Nat) (newLayout : Layout) (access : ResourceAccess) (stageMask : Nat)
        (solver : BarrierSolver) (log' : ResourceTransitionCollection),
        resolveTransition env self log texture newLayout access stageMask =
          Outcome.exception solver log' →
        solver.mResourceStatus texture = self.mResourceStatus texture ∧
        solver.mCopyStateTextures = self.mCopyStateTextures ∧ log' = log := by
  intro h
  have h3 := h discardEnv BarrierSolver.new [] 7 Layout.CopySrc ResourceAccess.Read 0 _ _ rfl
  revert h3
  decide

/-- C6, amended: when the texture overload throws, the collection is as it was
before the call; the texture had no entry and the status map is the one before the
call with the entry of the arguments added for it; `mCopyStateTextures` gained the
texture when the new layout is `CopySrc` and the list was empty or ended with
another texture, and is as it was otherwise. -/
theorem resolveTransition_exception_state (env : Env) (self : BarrierSolver)
    (log : ResourceTransitionCollection) (texture : Nat) (newLayout : Layout)
    (access : ResourceAccess) (stageMask : Nat)
    (solver : BarrierSolver) (log' : ResourceTransitionCollection)
    (hthrow : resolveTransition env self log texture newLayout access stageMask =
      Outcome.exception solver log') :
    log' = log ∧
    self.mResourceStatus texture = none ∧
    solver.mResourceStatus = self.mResourceStatus.set texture
      { layout := newLayout, access := ResourceAccess.Read, stageMask := stageMask } ∧
    solver.mCopyStateTextures =
      (if newLayout = Layout.CopySrc ∧
          (self.mCopyStateTextures = [] ∨ self.mCopyStateTextures.getLast? ≠ some texture)
       then self.mCopyStateTextures ++ [texture] else self.mCopyStateTextures) := by
  unfold resolveTransition at hthrow
  by_cases hvalid : resolveTransitionAsserts newLayout access stageMask = true
  · simp only [hvalid, Bool.true_eq_false, ↓reduceIte] at hthrow
    cases hst : self.mResourceStatus texture with
    | none =>
      simp only [hst] at hthrow
      by_cases hd : env.isDiscardableContent texture = true
      · by_cases ha : access = ResourceAccess.Read
        · simp only [hd, ha, ↓reduceIte, Outcome.exception.injEq] at hthrow
          subst ha
          refine ⟨hthrow.2.symm, rfl, ?_, ?_⟩
          · rw [← hthrow.1]
          · rw [← hthrow.1]
            have hdst : newLayout ≠ Layout.CopyDst := by
              intro hc
              subst hc
              simp [resolveTransitionAsserts, assertLayoutAccess] at hvalid
            simp only [pushCopyState, hdst, or_false]
            by_cases hsrc : newLayout = Layout.CopySrc
            · simp only [hsrc, true_and, ↓reduceIte]
            · simp only [hsrc, false_and, ↓reduceIte]
        · simp [hd, ha] at hthrow
      · simp [hd] at hthrow
    | some tracked =>
      simp only [hst] at hthrow
      split at hthrow
      · simp at hthrow
      · split at hthrow <;> simp at hthrow
  · simp [hvalid] at hthrow

theorem resolveTransition_exception_state_witness :
    ([] : ResourceTransitionCollection) = [] ∧
    BarrierSolver.new.mResourceStatus 7 = none ∧
    (BarrierSolver.new.mResourceStatus.set 7
      { layout := Layout.CopySrc, access := ResourceAccess.Read, stageMask := 0 }) =
      BarrierSolver.new.mResourceStatus.set 7
      { layout := Layout.CopySrc, access := ResourceAccess.Read, stageMask := 0 } ∧
    [7] =
      (if Layout.CopySrc = Layout.CopySrc ∧
          (BarrierSolver.new.mCopyStateTextures = [] ∨
            BarrierSolver.new.mCopyStateTextures.getLast? ≠ some 7)
       then BarrierSolver.new.mCopyStateTextures ++ [7]
       else BarrierSolver.new.mCopyStateTextures) :=
  resolveTransition_exception_state discardEnv BarrierSolver.new [] 7 Layout.CopySrc
    ResourceAccess.Read 0
    { mResourceStatus := BarrierSolver.new.mResourceStatus.set 7
        { layout := Layout.CopySrc, access := ResourceAccess.Read, stageMask := 0 },
      mCopyStateTextures := [7] } [] rfl

/-- C7: with an access that is not `Undefined`, the buffer overload of
`resolveTransition` returns. It appends a descriptor exactly when the buffer has an
entry and the tracked and the requested access are not both `Read`. A buffer with
no entry gets the entry of layout `Undefined` with the requested access and stage
mask, the collection staying as it was; an appended descriptor has both layouts
`Undefined`, the tracked access and stage mask as old ones and the requested as new
ones; when nothing is appended the collection is as it was. -/
theorem resolveTransitionBuffer_descriptor (self : BarrierSolver)
    (log : ResourceTransitionCollection) (bufferRes : Nat) (access : ResourceAccess)
    (stageMask : Nat) (haccess : access ≠ ResourceAccess.Undefined) :
    ∃ solver log', resolveTransitionBuffer self log bufferRes access stageMask =
        Outcome.ok solver log' ∧
      ((∃ resTrans, log' = log ++ [resTrans]) ↔
        ∃ tracked, self.mResourceStatus bufferRes = some tracked ∧
          ¬ (tracked.access = ResourceAccess.Read ∧ access = ResourceAccess.Read)) ∧
      (self.mResourceStatus bufferRes = none →
        log' = log ∧
        solver.mResourceStatus = self.mResourceStatus.set bufferRes
          { layout := Layout.Undefined, access := access, stageMask := stageMask }) ∧
      (∀ tracked, self.mResourceStatus bufferRes = some tracked →
        ¬ (tracked.access = ResourceAccess.Read ∧ access = ResourceAccess.Read) →
        log' = log ++
          [{ resource := bufferRes, oldLayout := Layout.Undefined,
             newLayout := Layout.Undefined,
             oldAccess := tracked.access, newAccess := access,
             oldStageMask := tracked.stageMask, newStageMask := stageMask }]) ∧
      (∀ tracked, self.mResourceStatus bufferRes = some tracked →
        (tracked.access = ResourceAccess.Read ∧ access = ResourceAccess.Read) →
        log' = log) := by
  unfold resolveTransitionBuffer
  simp only [haccess, ↓reduceIte]
  cases hst : self.mResourceStatus bufferRes with
  | none =>
    refine ⟨_, _, rfl, ?_, fun _ => ⟨rfl, rfl⟩, ?_, ?_⟩
    · simp
    · intro tracked ht
      simp at ht
    · intro tracked ht
      simp at ht
  | some tracked =>
    by_cases hn : access ≠ ResourceAccess.Read ∨ tracked.access ≠ ResourceAccess.Read
    · simp only [hn, ↓reduceIte]
      have hnot : ¬ (tracked.access = ResourceAccess.Read ∧ access = ResourceAccess.Read) := by
        tauto
      refine ⟨_, _, rfl, ?_, ?_, ?_, ?_⟩
      · exact ⟨fun _ => ⟨tracked, rfl, hnot⟩, fun _ => ⟨_, rfl⟩⟩
      · intro h
        simp at h
      · intro t ht _
        simp only [Option.some.injEq] at ht
        subst ht
        rfl
      · intro t ht hboth
        simp only [Option.some.injEq] at ht
        subst ht
        exact absurd hboth hnot
    · simp only [hn, ↓reduceIte]
      have hboth : tracked.access = ResourceAccess.Read ∧ access = ResourceAccess.Read := by
        tauto
      refine ⟨_, _, rfl, ?_, ?_, ?_, ?_⟩
      · constructor
        · rintro ⟨resTrans, h⟩
          simp at h
        · rintro ⟨t, ht, hnot⟩
          simp only [Option.some.injEq] at ht
          subst ht
          exact absurd hboth hnot
      · intro h
        simp at h
      · intro t ht hnot
        simp only [Option.some.injEq] at ht
        subst ht
        exact absurd hboth hnot
      · intro _ _ _
        rfl

theorem resolveTransitionBuffer_descriptor_witness :
    ∃ solver log', resolveTransitionBuffer bufferSolver [] 3 ResourceAccess.Read 5 =
        Outcome.ok solver log' ∧
      ((∃ resTrans, log' = [] ++ [resTrans]) ↔
        ∃ tracked, bufferSolver.mResourceStatus 3 = some tracked ∧
          ¬ (tracked.access = ResourceAccess.Read ∧
              ResourceAccess.Read = ResourceAccess.Read)) ∧
      (bufferSolver.mResourceStatus 3 = none →
        log' = [] ∧
        solver.mResourceStatus = bufferSolver.mResourceStatus.set 3
          { layout := Layout.Undefined, access := ResourceAccess.Read, stageMask := 5 }) ∧
      (∀ tracked, bufferSolver.mResourceStatus 3 = some tracked →
        ¬ (tracked.access = ResourceAccess.Read ∧
            ResourceAccess.Read = ResourceAccess.Read) →
        log' = [] ++
          [{ resource := 3, oldLayout := Layout.Undefined,
             newLayout := Layout.Undefined,
             oldAccess := tracked.access, newAccess := ResourceAccess.Read,
             oldStageMask := tracked.stageMask, newStageMask := 5 }]) ∧
      (∀ tracked, bufferSolver.mResourceStatus 3 = some tracked →
        (tracked.access = ResourceAccess.Read ∧
          ResourceAccess.Read = ResourceAccess.Read) →
        log' = []) :=
  resolveTransitionBuffer_descriptor bufferSolver [] 3 ResourceAccess.Read 5 (by decide)

theorem resolveBufferUses_tracked (bufferRes : Nat) (uses : List (ResourceAccess × Nat)) :
    ∀ (self : BarrierSolver) (log : ResourceTransitionCollection)
      (tracked : ResourceStatus),
      self.mResourceStatus bufferRes = some tracked →
      (∀ use ∈ uses, use.1 ≠ ResourceAccess.Undefined) →
      ∃ solver appended,
        resolveBufferUses bufferRes uses self log = Outcome.ok solver (log ++ appended) ∧
        appended.length = notBothRead (tracked.access :: uses.map Prod.fst) := by
  induction uses with
  | nil =>
    intro self log tracked _ _
    exact ⟨self, [], by simp [resolveBufferUses], by simp [notBothRead]⟩
  | cons use rest ih =>
    intro self log tracked hsome hdef
    have huse : use.1 ≠ ResourceAccess.Undefined := hdef use (List.mem_cons_self _ _)
    have hrest : ∀ u ∈ rest, u.1 ≠ ResourceAccess.Undefined :=
      fun u hu => hdef u (List.mem_cons_of_mem _ hu)
    simp only [resolveBufferUses, resolveTransitionBuffer, huse, hsome, ↓reduceIte]
    by_cases hn : use.1 ≠ ResourceAccess.Read ∨ tracked.access ≠ ResourceAccess.Read
    · simp only [hn, ↓reduceIte]
      obtain ⟨solver, appended, hrun, hlen⟩ := ih
        { mResourceStatus := self.mResourceStatus.set bufferRes
            { layout := tracked.layout, access := use.1,
              stageMask := (0 ||| use.2) % 256 },
          mCopyStateTextures := self.mCopyStateTextures }
        (log ++
          [{ resource := bufferRes, oldLayout := Layout.Undefined,
             newLayout := Layout.Undefined,
             oldAccess := tracked.access, newAccess := use.1,
             oldStageMask := tracked.stageMask, newStageMask := use.2 }])
        _ (set_self self.mResourceStatus bufferRes _) hrest
      refine ⟨solver,
        { resource := bufferRes, oldLayout := Layout.Undefined,
          newLayout := Layout.Undefined,
          oldAccess := tracked.access, newAccess := use.1,
          oldStageMask := tracked.stageMask, newStageMask := use.2 } :: appended, ?_, ?_⟩
      · rw [hrun]
        simp
      · have hnot : ¬ (tracked.access = ResourceAccess.Read ∧ use.1 = ResourceAccess.Read) := by
          tauto
        simp only [List.length_cons, hlen, List.map_cons, notBothRead, hnot, ↓reduceIte]
        omega
    · simp only [hn, ↓reduceIte]
      obtain ⟨solver, appended, hrun, hlen⟩ := ih
        { mResourceStatus := self.mResourceStatus.set bufferRes
            { layout := tracked.layout, access := use.1,
              stageMask := (tracked.stageMask ||| use.2) % 256 },
          mCopyStateTextures := self.mCopyStateTextures }
        log _ (set_self self.mResourceStatus bufferRes _) hrest
      refine ⟨solver, appended, hrun, ?_⟩
      have hboth : tracked.access = ResourceAccess.Read ∧ use.1 = ResourceAccess.Read := by
        tauto
      simp only [hlen, List.map_cons, notBothRead, hboth, and_self, ↓reduceIte]
      omega

/-- C8: resolving one buffer that has no entry with a non-empty sequence of
accesses, none `Undefined`, and any stage masks: every call returns and the number
of descriptors appended is the number of adjacent pairs of accesses that are not
both `Read`. In particular `Read, Read` leaves the collection as it was and
`Read, Write, Read` appends exactly two descriptors. -/
theorem resolveBufferUses_count (self : BarrierSolver)
    (log : ResourceTransitionCollection) (bufferRes : Nat)
    (hnone : self.mResourceStatus bufferRes = none) :
    (∀ uses : List (ResourceAccess × Nat), uses ≠ [] →
      (∀ use ∈ uses, use.1 ≠ ResourceAccess.Undefined) →
      ∃ solver appended,
        resolveBufferUses bufferRes uses self log = Outcome.ok solver (log ++ appended) ∧
        appended.length = notBothRead (uses.map Prod.fst)) ∧
    (∀ m1 m2 : Nat, ∃ solver,
      resolveBufferUses bufferRes
        [(ResourceAccess.Read, m1), (ResourceAccess.Read, m2)] self log =
        Outcome.ok solver log) ∧
    (∀ m1 m2 m3 : Nat, ∃ solver first second,
      resolveBufferUses bufferRes
        [(ResourceAccess.Read, m1), (ResourceAccess.Write, m2), (ResourceAccess.Read, m3)]
        self log = Outcome.ok solver (log ++ [first, second])) := by
  have main : ∀ uses : List (ResourceAccess × Nat), uses ≠ [] →
      (∀ use ∈ uses, use.1 ≠ ResourceAccess.Undefined) →
      ∃ solver appended,
        resolveBufferUses bufferRes uses self log = Outcome.ok solver (log ++ appended) ∧
        appended.length = notBothRead (uses.map Prod.fst) := by
    intro uses hne hdef
    cases uses with
    | nil => exact absurd rfl hne
    | cons use rest =>
      have huse : use.1 ≠ ResourceAccess.Undefined := hdef use (List.mem_cons_self _ _)
      have hrest : ∀ u ∈ rest, u.1 ≠ ResourceAccess.Undefined :=
        fun u hu => hdef u (List.mem_cons_of_mem _ hu)
      simp only [resolveBufferUses, resolveTransitionBuffer, huse, hnone, ↓reduceIte]
      obtain ⟨solver, appended, hrun, hlen⟩ := resolveBufferUses_tracked bufferRes rest
        { mResourceStatus := self.mResourceStatus.set bufferRes
            { layout := Layout.Undefined, access := use.1, stageMask := use.2 },
          mCopyStateTextures := self.mCopyStateTextures }
        log _ (set_self self.mResourceStatus bufferRes
          { layout := Layout.Undefined, access := use.1, stageMask := use.2 }) hrest
      exact ⟨solver, appended, hrun, by simpa using hlen⟩
  refine ⟨main, ?_, ?_⟩
  · intro m1 m2
    obtain ⟨solver, appended, hrun, hlen⟩ :=
      main [(ResourceAccess.Read, m1), (ResourceAccess.Read, m2)] (by simp)
        (by simp)
    have hnil : appended = [] := by
      apply List.eq_nil_of_length_eq_zero
      rw [hlen]
      simp [notBothRead]
    subst hnil
    exact ⟨solver, by simpa using hrun⟩
  · intro m1 m2 m3
    obtain ⟨solver, appended, hrun, hlen⟩ :=
      main [(ResourceAccess.Read, m1), (ResourceAccess.Write, m2), (ResourceAccess.Read, m3)]
        (by simp) (by simp)
    have htwo : appended.length = 2 := by
      rw [hlen]
      simp [notBothRead]
    obtain ⟨first, second, hpair⟩ := List.length_eq_two.mp htwo
    subst hpair
    exact ⟨solver, first, second, hrun⟩

theorem resolveBufferUses_count_witness :
    ∃ solver appended,
      resolveBufferUses 3
        [(ResourceAccess.Write, 1), (ResourceAccess.Read, 2), (ResourceAccess.Read, 4)]
        BarrierSolver.new [] = Outcome.ok solver ([] ++ appended) ∧
      appended.length = notBothRead
        ([(ResourceAccess.Write, 1), (ResourceAccess.Read, 2),
          (ResourceAccess.Read, 4)].map Prod.fst) :=
  (resolveBufferUses_count BarrierSolver.new [] 3 rfl).1
    [(ResourceAccess.Write, 1), (ResourceAccess.Read, 2), (ResourceAccess.Read, 4)]
    (by simp) (by decide)

/-- C10: with a layout and an access that pass its assertion, `assumeTransition`
returns; the entry of the texture is then exactly the arguments, whether or not it
had one; every other entry, `mCopyStateTextures` and the collection are as they
were (for every layout, `CopySrc` and `CopyDst` included). -/
theorem assumeTransition_sets (self : BarrierSolver) (log : ResourceTransitionCollection)
    (texture : Nat) (newLayout : Layout) (access : ResourceAccess) (stageMask : Nat)
    (hlegal : assertLayoutAccess newLayout access = true) :
    ∃ solver, assumeTransition self log texture newLayout access stageMask =
        Outcome.ok solver log ∧
      solver.mResourceStatus texture =
        some { layout := newLayout, access := access, stageMask := stageMask } ∧
      (∀ k, k ≠ texture → solver.mResourceStatus k = self.mResourceStatus k) ∧
      solver.mCopyStateTextures = self.mCopyStateTextures := by
  unfold assumeTransition
  simp only [hlegal, Bool.true_eq_false, ↓reduceIte]
  exact ⟨_, rfl, set_self _ _ _, fun k hk => set_other _ _ _ _ hk, rfl⟩

theorem assumeTransition_sets_witness :
    ∃ solver, assumeTransition sampledSolver [] 7 Layout.CopySrc ResourceAccess.Read 0 =
        Outcome.ok solver [] ∧
      solver.mResourceStatus 7 =
        some { layout := Layout.CopySrc, access := ResourceAccess.Read, stageMask := 0 } ∧
      (∀ k, k ≠ 7 → solver.mResourceStatus k = sampledSolver.mResourceStatus k) ∧
      solver.mCopyStateTextures = sampledSolver.mCopyStateTextures :=
  assumeTransition_sets sampledSolver [] 7 Layout.CopySrc ResourceAccess.Read 0 (by decide)

/-! ### Merging, resets and reachable solvers -/

theorem resolveTransition_ok_cases (env : Env) (self solver : BarrierSolver)
    (log log' : ResourceTransitionCollection) (texture : Nat) (newLayout : Layout)
    (access : ResourceAccess) (stageMask : Nat)
    (h : resolveTransition env self log texture newLayout access stageMask =
      Outcome.ok solver log') :
    resolveTransitionAsserts newLayout access stageMask = true ∧
    solver.mCopyStateTextures = pushCopyState self.mCopyStateTextures texture newLayout ∧
    ((self.mResourceStatus texture = none ∧
        solver.mResourceStatus = self.mResourceStatus.set texture
          { layout := newLayout, access := access, stageMask := stageMask } ∧
        ∃ resTrans, resTrans.resource = texture ∧ log' = log ++ [resTrans]) ∨
     (∃ tracked, self.mResourceStatus texture = some tracked ∧
        env.isSameLayout tracked.layout (env.getCurrentLayout texture) texture = true ∧
        ((needsTransition env tracked texture newLayout access = true ∧
            solver.mResourceStatus = self.mResourceStatus.set texture
              { layout := newLayout, access := access,
                stageMask := (0 ||| stageMask) % 256 } ∧
            log' = log ++
              [{ resource := texture, oldLayout := tracked.layout,
                 newLayout := newLayout,
                 oldAccess := tracked.access, newAccess := access,
                 oldStageMask := tracked.stageMask, newStageMask := stageMask }]) ∨
         (needsTransition env tracked texture newLayout access = false ∧
            solver.mResourceStatus = self.mResourceStatus.set texture
              { layout := newLayout, access := access,
                stageMask := (tracked.stageMask ||| stageMask) % 256 } ∧
            log' = log)))) := by
  unfold resolveTransition at h
  by_cases hvalid : resolveTransitionAsserts newLayout access stageMask = true
  · simp only [hvalid, Bool.true_eq_false, ↓reduceIte] at h
    refine ⟨hvalid, ?_⟩
    cases hst : self.mResourceStatus texture with
    | none =>
      simp only [hst] at h
      by_cases hd : env.isDiscardableContent texture = true
      · by_cases ha : access = ResourceAccess.Read
        · simp [hd, ha] at h
        · simp only [hd, ha, ↓reduceIte, Outcome.ok.injEq] at h
          obtain ⟨h1, h2⟩ := h
          subst h1 h2
          exact ⟨rfl, Or.inl ⟨rfl, rfl, _, rfl, rfl⟩⟩
      · simp only [hd, Bool.false_eq_true, ↓reduceIte, Outcome.ok.injEq] at h
        obtain ⟨h1, h2⟩ := h
        subst h1 h2
        exact ⟨rfl, Or.inl ⟨rfl, rfl, _, rfl, rfl⟩⟩
    | some tracked =>
      simp only [hst] at h
      by_cases hc :
          env.isSameLayout tracked.layout (env.getCurrentLayout texture) texture = true
      · by_cases hn : needsTransition env tracked texture newLayout access = true
        · simp only [hc, hn, Bool.true_eq_false, ↓reduceIte, Outcome.ok.injEq] at h
          obtain ⟨h1, h2⟩ := h
          subst h1 h2
          exact ⟨rfl, Or.inr ⟨tracked, rfl, hc, Or.inl ⟨hn, rfl, rfl⟩⟩⟩
        · simp only [hc, hn, Bool.true_eq_false, Bool.false_eq_true, ↓reduceIte,
            Outcome.ok.injEq] at h
          obtain ⟨h1, h2⟩ := h
          subst h1 h2
          exact ⟨rfl, Or.inr ⟨tracked, rfl, hc,
            Or.inr ⟨by simpa using hn, rfl, rfl⟩⟩⟩
      · simp [hc] at h
  · simp [hvalid] at h

theorem resolveTransition_exception_cases (env : Env) (self solver : BarrierSolver)
    (log log' : ResourceTransitionCollection) (texture : Nat) (newLayout : Layout)
    (access : ResourceAccess) (stageMask : Nat)
    (h : resolveTransition env self log texture newLayout access stageMask =
      Outcome.exception solver log') :
    resolveTransitionAsserts newLayout access stageMask = true ∧
    self.mResourceStatus texture = none ∧
    solver.mCopyStateTextures = pushCopyState self.mCopyStateTextures texture newLayout ∧
    solver.mResourceStatus = self.mResourceStatus.set texture
      { layout := newLayout, access := access, stageMask := stageMask } ∧
    log' = log := by
  unfold resolveTransition at h
  by_cases hvalid : resolveTransitionAsserts newLayout access stageMask = true
  · simp only [hvalid, Bool.true_eq_false, ↓reduceIte] at h
    refine ⟨hvalid, ?_⟩
    cases hst : self.mResourceStatus texture with
    | none =>
      simp only [hst] at h
      by_cases hd : env.isDiscardableContent texture = true
      · by_cases ha : access = ResourceAccess.Read
        · simp only [hd, ha, ↓reduceIte, Outcome.exception.injEq] at h
          obtain ⟨h1, h2⟩ := h
          subst h1 h2 ha
          exact ⟨rfl, rfl, rfl, rfl⟩
        · simp [hd, ha] at h
      · simp [hd] at h
    | some tracked =>
      simp only [hst] at h
      split at h
      · simp at h
      · split at h <;> simp at h
  · simp [hvalid] at h

theorem resolveTransitionBuffer_cases (self : BarrierSolver)
    (log : ResourceTransitionCollection) (bufferRes : Nat) (access : ResourceAccess)
    (stageMask : Nat) :
    resolveTransitionBuffer self log bufferRes access stageMask = Outcome.assertFailed ∨
    ∃ status added,
      resolveTransitionBuffer self log bufferRes access stageMask =
        Outcome.ok
          { mResourceStatus := self.mResourceStatus.set bufferRes status,
            mCopyStateTextures := self.mCopyStateTextures } (log ++ added) ∧
      added.length ≤ 1 ∧ ∀ resTrans ∈ added, resTrans.resource = bufferRes := by
  unfold resolveTransitionBuffer
  by_cases ha : access = ResourceAccess.Undefined
  · simp [ha]
  · right
    simp only [ha, ↓reduceIte]
    cases hst : self.mResourceStatus bufferRes with
    | none =>
      exact ⟨{ layout := Layout.Undefined, access := access, stageMask := stageMask }, [],
        by simp, by simp, by simp⟩
    | some tracked =>
      by_cases hn : access ≠ ResourceAccess.Read ∨ tracked.access ≠ ResourceAccess.Read
      · simp only [hn, ↓reduceIte]
        exact ⟨_, [_], rfl, by simp, by simp⟩
      · simp only [hn, ↓reduceIte]
        exact ⟨{ layout := tracked.layout, access := access,
                 stageMask := (tracked.stageMask ||| stageMask) % 256 }, [],
          by simp, by simp, by simp⟩

/-- C11: after `assumeTransitions` the status map has exactly the keys of the
solver's map together with those of the external table; a key of the solver's map
keeps its status, whatever the external table holds for it; a key of the external
table only gets the status from there; the external table is as it was. -/
theorem assumeTransitions_merge (self : BarrierSolver)
    (log : ResourceTransitionCollection) (resourceStatus : ResourceStatusMap) :
    ∃ solver, assumeTransitions self log resourceStatus = Outcome.ok solver log ∧
      (∀ k, solver.mResourceStatus k ≠ none ↔
        (self.mResourceStatus k ≠ none ∨ resourceStatus k ≠ none)) ∧
      (∀ k status, self.mResourceStatus k = some status →
        solver.mResourceStatus k = some status) ∧
      (∀ k, self.mResourceStatus k = none →
        solver.mResourceStatus k = resourceStatus k) ∧
      assumeTransitionsArgument resourceStatus = resourceStatus ∧
      solver.mCopyStateTextures = self.mCopyStateTextures := by
  refine ⟨_, rfl, ?_, ?_, ?_, rfl, rfl⟩
  · intro k
    simp only [insertRange]
    cases hk : self.mResourceStatus k <;> simp
  · intro k status hk
    simp only [insertRange, hk]
  · intro k hk
    simp only [insertRange, hk]

theorem pushCopyState_copyEnd (mCopyStateTextures : List Nat) (texture : Nat) :
    pushCopyState mCopyStateTextures texture Layout.CopyEnd = mCopyStateTextures := by
  simp [pushCopyState]

theorem resetLoop_eq (env : Env) (textures : List Nat) :
    ∀ (self : BarrierSolver) (log : ResourceTransitionCollection),
      resetLoop env textures self log = resetCopyLayoutsOnlyLoop env textures self log := by
  induction textures with
  | nil => intro self log; rfl
  | cons texture rest ih =>
    intro self log
    simp only [resetLoop, resetCopyLayoutsOnlyLoop]
    split
    · cases resolveTransition env self log texture Layout.CopyEnd ResourceAccess.Read 0 with
      | ok solver log' => exact ih solver log'
      | assertFailed => rfl
      | exception solver log' => rfl
    · exact ih self log

theorem resetCopyLayoutsOnlyLoop_copy (env : Env) (textures : List Nat) :
    ∀ (self : BarrierSolver) (log : ResourceTransitionCollection),
      textures.Nodup →
      (∀ t ∈ textures, ∃ status, self.mResourceStatus t = some status ∧
        (status.layout = Layout.CopySrc ∨ status.layout = Layout.CopyDst) ∧
        env.getCurrentLayout t = status.layout ∧
        env.isSameLayout status.layout (env.getCurrentLayout t) t = true ∧
        env.isSameLayout status.layout Layout.CopyEnd t = false) →
      ∃ solver added,
        resetCopyLayoutsOnlyLoop env textures self log = Outcome.ok solver (log ++ added) ∧
        added.map ResourceTransition.resource = textures ∧
        (∀ resTrans ∈ added, resTrans.newLayout = Layout.CopyEnd ∧
          resTrans.newAccess = ResourceAccess.Read ∧ resTrans.newStageMask = 0) ∧
        (∀ k, k ∉ textures → solver.mResourceStatus k = self.mResourceStatus k) ∧
        solver.mCopyStateTextures = self.mCopyStateTextures := by
  induction textures with
  | nil =>
    intro self log _ _
    exact ⟨self, [], by simp [resetCopyLayoutsOnlyLoop], rfl, by simp, fun _ _ => rfl, rfl⟩
  | cons texture rest ih =>
    intro self log hnodup htracked
    obtain ⟨status, hsome, hlayout, hcur, hassert, hend⟩ :=
      htracked texture (List.mem_cons_self _ _)
    have hnotin : texture ∉ rest := (List.nodup_cons.mp hnodup).1
    have hcond : env.getCurrentLayout texture = Layout.CopySrc ∨
        env.getCurrentLayout texture = Layout.CopyDst := by
      rw [hcur]
      exact hlayout
    have hneeds : needsTransition env status texture Layout.CopyEnd ResourceAccess.Read
        = true := by
      simp [needsTransition, hend]
    have hvalid : resolveTransitionAsserts Layout.CopyEnd ResourceAccess.Read 0 = true := by
      decide
    have hstep : resolveTransition env self log texture Layout.CopyEnd ResourceAccess.Read 0 =
        Outcome.ok
          { mResourceStatus := self.mResourceStatus.set texture
              { layout := Layout.CopyEnd, access := ResourceAccess.Read,
                stageMask := (0 ||| 0) % 256 },
            mCopyStateTextures := self.mCopyStateTextures }
          (log ++
            [{ resource := texture, oldLayout := status.layout,
               newLayout := Layout.CopyEnd,
               oldAccess := status.access, newAccess := ResourceAccess.Read,
               oldStageMask := status.stageMask, newStageMask := 0 }]) := by
      simp only [resolveTransition, hvalid, hsome, hassert, hneeds, Bool.true_eq_false,
        ↓reduceIte, pushCopyState_copyEnd]
    have hrest : ∀ t ∈ rest, ∃ st,
        (self.mResourceStatus.set texture
          { layout := Layout.CopyEnd, access := ResourceAccess.Read,
            stageMask := (0 ||| 0) % 256 }) t = some st ∧
        (st.layout = Layout.CopySrc ∨ st.layout = Layout.CopyDst) ∧
        env.getCurrentLayout t = st.layout ∧
        env.isSameLayout st.layout (env.getCurrentLayout t) t = true ∧
        env.isSameLayout st.layout Layout.CopyEnd t = false := by
      intro t ht
      have hne : t ≠ texture := fun h => hnotin (h ▸ ht)
      rw [set_other _ _ _ _ hne]
      exact htracked t (List.mem_cons_of_mem _ ht)
    obtain ⟨solver, added, hrun, hmap, hnew, hother, hreg⟩ := ih
      { mResourceStatus := self.mResourceStatus.set texture
          { layout := Layout.CopyEnd, access := ResourceAccess.Read,
            stageMask := (0 ||| 0) % 256 },
        mCopyStateTextures := self.mCopyStateTextures }
      (log ++
        [{ resource := texture, oldLayout := status.layout,
           newLayout := Layout.CopyEnd,
           oldAccess := status.access, newAccess := ResourceAccess.Read,
           oldStageMask := status.stageMask, newStageMask := 0 }])
      (List.nodup_cons.mp hnodup).2 hrest
    refine ⟨solver,
      { resource := texture, oldLayout := status.layout,
        newLayout := Layout.CopyEnd,
        oldAccess := status.access, newAccess := ResourceAccess.Read,
        oldStageMask := status.stageMask, newStageMask := 0 } :: added, ?_, ?_, ?_, ?_, hreg⟩
    · simp only [resetCopyLayoutsOnlyLoop, hcond, ↓reduceIte, hstep, hrun]
      simp
    · simp [hmap]
    · intro resTrans hmem
      rcases List.mem_cons.mp hmem with h | h
      · subst h
        exact ⟨rfl, rfl, rfl⟩
      · exact hnew resTrans h
    · intro k hk
      have hk1 : k ≠ texture := fun h => hk (h ▸ List.mem_cons_self _ _)
      have hk2 : k ∉ rest := fun h => hk (List.mem_cons_of_mem _ h)
      rw [hother k hk2]
      exact set_other _ _ _ _ hk1

/-- C12: a registry of `N` pairwise distinct textures, each tracked with layout
`CopySrc` or `CopyDst` and currently in that layout, on a backend that holds
neither of these to be the same as `CopyEnd` (and, as the assertion of the tracked
branch asks, holds the tracked layout to be the same as the current one):
`resetCopyLayoutsOnly` returns, appends exactly `N` descriptors, one per texture
in the order of the registry, each to `CopyEnd`, `Read`, stage mask 0; afterwards
the registry is empty and the entry of every resource outside it is as it was. -/
theorem resetCopyLayoutsOnly_all (env : Env) (self : BarrierSolver)
    (log : ResourceTransitionCollection)
    (hdistinct : self.mCopyStateTextures.Nodup)
    (htracked : ∀ t ∈ self.mCopyStateTextures, ∃ status,
      self.mResourceStatus t = some status ∧
      (status.layout = Layout.CopySrc ∨ status.layout = Layout.CopyDst) ∧
      env.getCurrentLayout t = status.layout)
    (hbackend : ∀ t ∈ self.mCopyStateTextures,
      env.isSameLayout Layout.CopySrc Layout.CopyEnd t = false ∧
      env.isSameLayout Layout.CopyDst Layout.CopyEnd t = false)
    (hassert : ∀ t ∈ self.mCopyStateTextures, ∀ status,
      self.mResourceStatus t = some status →
      env.isSameLayout status.layout (env.getCurrentLayout t) t = true) :
    ∃ solver added,
      resetCopyLayoutsOnly env self log = Outcome.ok solver (log ++ added) ∧
      added.length = self.mCopyStateTextures.length ∧
      added.map ResourceTransition.resource = self.mCopyStateTextures ∧
      (∀ resTrans ∈ added, resTrans.newLayout = Layout.CopyEnd ∧
        resTrans.newAccess = ResourceAccess.Read ∧ resTrans.newStageMask = 0) ∧
      solver.mCopyStateTextures = [] ∧
      (∀ k, k ∉ self.mCopyStateTextures →
        solver.mResourceStatus k = self.mResourceStatus k) := by
  have hall : ∀ t ∈ self.mCopyStateTextures, ∃ status,
      self.mResourceStatus t = some status ∧
      (status.layout = Layout.CopySrc ∨ status.layout = Layout.CopyDst) ∧
      env.getCurrentLayout t = status.layout ∧
      env.isSameLayout status.layout (env.getCurrentLayout t) t = true ∧
      env.isSameLayout status.layout Layout.CopyEnd t = false := by
    intro t ht
    obtain ⟨status, hsome, hlayout, hcur⟩ := htracked t ht
    refine ⟨status, hsome, hlayout, hcur, hassert t ht status hsome, ?_⟩
    rcases hlayout with h | h
    · rw [h]
      exact (hbackend t ht).1
    · rw [h]
      exact (hbackend t ht).2
  obtain ⟨solver, added, hrun, hmap, hnew, hother, _⟩ :=
    resetCopyLayoutsOnlyLoop_copy env self.mCopyStateTextures self log hdistinct hall
  refine ⟨{ mResourceStatus := solver.mResourceStatus, mCopyStateTextures := [] }, added,
    ?_, ?_, hmap, hnew, rfl, hother⟩
  · simp only [resetCopyLayoutsOnly, hrun]
  · rw [← hmap, List.length_map]

theorem resetCopyLayoutsOnly_all_witness :
    ∃ solver added,
      resetCopyLayoutsOnly copyEnv copySolver [] = Outcome.ok solver ([] ++ added) ∧
      added.length = copySolver.mCopyStateTextures.length ∧
      added.map ResourceTransition.resource = copySolver.mCopyStateTextures ∧
      (∀ resTrans ∈ added, resTrans.newLayout = Layout.CopyEnd ∧
        resTrans.newAccess = ResourceAccess.Read ∧ resTrans.newStageMask = 0) ∧
      solver.mCopyStateTextures = [] ∧
      (∀ k, k ∉ copySolver.mCopyStateTextures →
        solver.mResourceStatus k = copySolver.mResourceStatus k) :=
  resetCopyLayoutsOnly_all copyEnv copySolver [] (by decide)
    (by
      intro t ht
      simp only [copySolver, List.mem_cons, List.mem_singleton, List.not_mem_nil,
        or_false] at ht
      rcases ht with rfl | rfl
      · exact ⟨_, rfl, Or.inl rfl, rfl⟩
      · exact ⟨_, rfl, Or.inr rfl, rfl⟩)
    (by
      intro t _
      exact ⟨rfl, rfl⟩)
    (by
      intro t ht status hsome
      simp only [copySolver, List.mem_cons, List.mem_singleton, List.not_mem_nil,
        or_false] at ht
      rcases ht with rfl | rfl
      · have h : (⟨Layout.CopySrc, ResourceAccess.Read, 0⟩ : ResourceStatus) = status :=
          Option.some.inj hsome
        subst h
        rfl
      · have h : (⟨Layout.CopyDst, ResourceAccess.Write, 0⟩ : ResourceStatus) = status :=
          Option.some.inj hsome
        subst h
        rfl)

theorem resetCopyLayoutsOnlyLoop_eq_resolveEach (env : Env) (textures : List Nat) :
    ∀ (self : BarrierSolver) (log : ResourceTransitionCollection),
      resetCopyLayoutsOnlyLoop env textures self log =
        resolveEach env Layout.CopyEnd ResourceAccess.Read 0
          (textures.filter fun t => decide (env.getCurrentLayout t = Layout.CopySrc ∨
            env.getCurrentLayout t = Layout.CopyDst)) self log := by
  induction textures with
  | nil => intro self log; rfl
  | cons texture rest ih =>
    intro self log
    by_cases hcond : env.getCurrentLayout texture = Layout.CopySrc ∨
        env.getCurrentLayout texture = Layout.CopyDst
    · simp only [resetCopyLayoutsOnlyLoop, hcond, ↓reduceIte, List.filter_cons, decide_True,
        resolveEach]
      cases resolveTransition env self log texture Layout.CopyEnd ResourceAccess.Read 0 with
      | ok solver log' => exact ih solver log'
      | assertFailed => rfl
      | exception solver log' => rfl
    · simp only [resetCopyLayoutsOnlyLoop, hcond, ↓reduceIte, List.filter_cons,
        decide_False, Bool.false_eq_true]
      exact ih self log

theorem resolveTransition_copyEnd_status (env : Env) (self solver : BarrierSolver)
    (log log' : ResourceTransitionCollection) (texture : Nat)
    (h : resolveTransition env self log texture Layout.CopyEnd ResourceAccess.Read 0 =
      Outcome.ok solver log') :
    ∃ mask, solver.mResourceStatus = self.mResourceStatus.set texture
        { layout := Layout.CopyEnd, access := ResourceAccess.Read, stageMask := mask } ∧
      ((∀ tracked, self.mResourceStatus texture = some tracked → tracked.stageMask = 0) →
        mask = 0) := by
  obtain ⟨_, _, hcases⟩ := resolveTransition_ok_cases env self solver log log' texture _ _ _ h
  rcases hcases with ⟨_, hset, _⟩ | ⟨tracked, hsome, _, ⟨_, hset, _⟩ | ⟨_, hset, _⟩⟩
  · exact ⟨0, hset, fun _ => rfl⟩
  · exact ⟨(0 ||| 0) % 256, hset, fun _ => rfl⟩
  · refine ⟨(tracked.stageMask ||| 0) % 256, hset, fun hz => ?_⟩
    rw [hz tracked hsome]
    rfl

theorem resolveEach_copyEnd_status (env : Env) (textures : List Nat) :
    ∀ (self solver : BarrierSolver) (log log' : ResourceTransitionCollection),
      resolveEach env Layout.CopyEnd ResourceAccess.Read 0 textures self log =
        Outcome.ok solver log' →
      (∀ t, (t ∈ textures ∨ ∃ status, self.mResourceStatus t = some status ∧
          status.layout = Layout.CopyEnd ∧ status.access = ResourceAccess.Read) →
        ∃ status, solver.mResourceStatus t = some status ∧
          status.layout = Layout.CopyEnd ∧ status.access = ResourceAccess.Read) ∧
      (∀ t, (∀ tracked, self.mResourceStatus t = some tracked → tracked.stageMask = 0) →
        ∀ status, solver.mResourceStatus t = some status → status.stageMask = 0) := by
  induction textures with
  | nil =>
    intro self solver log log' h
    simp only [resolveEach, Outcome.ok.injEq] at h
    obtain ⟨h1, _⟩ := h
    subst h1
    refine ⟨?_, fun t hz => hz⟩
    intro t ht
    rcases ht with ht | ht
    · simp at ht
    · exact ht
  | cons texture rest ih =>
    intro self solver log log' h
    simp only [resolveEach] at h
    cases hstep : resolveTransition env self log texture Layout.CopyEnd
        ResourceAccess.Read 0 with
    | assertFailed => simp [hstep] at h
    | exception s1 l1 => simp [hstep] at h
    | ok s1 l1 =>
      simp only [hstep] at h
      obtain ⟨mask, hset, hmask⟩ :=
        resolveTransition_copyEnd_status env self s1 log l1 texture hstep
      obtain ⟨hP, hZ⟩ := ih s1 solver l1 log' h
      constructor
      · intro t ht
        apply hP t
        by_cases heq : t = texture
        · right
          subst heq
          exact ⟨_, by rw [hset]; exact set_self _ _ _, rfl, rfl⟩
        · rcases ht with ht | ⟨status, hsome, hl, ha⟩
          · rcases List.mem_cons.mp ht with ht | ht
            · exact absurd ht heq
            · exact Or.inl ht
          · right
            exact ⟨status, by rw [hset, set_other _ _ _ _ heq]; exact hsome, hl, ha⟩
      · intro t hz
        apply hZ t
        intro tracked htracked
        by_cases heq : t = texture
        · subst heq
          rw [hset, set_self] at htracked
          have hm := hmask hz
          subst hm
          rw [← Option.some.inj htracked]
        · rw [hset, set_other _ _ _ _ heq] at htracked
          exact hz tracked htracked

theorem mixedSolver_reached :
    ∃ solver log,
      runCalls [Call.resolveTexture mixedEnv 7 Layout.CopySrc ResourceAccess.Read 0,
                Call.resolveTexture mixedEnv 7 Layout.Texture ResourceAccess.Read 1,
                Call.assumeTransition 8 Layout.CopySrc ResourceAccess.Read 3,
                Call.resolveTexture mixedEnv 8 Layout.CopySrc ResourceAccess.Read 0]
          BarrierSolver.new [] = Outcome.ok solver log ∧
      solver.mCopyStateTextures = mixedSolver.mCopyStateTextures ∧
      solver.mResourceStatus 7 = mixedSolver.mResourceStatus 7 ∧
      solver.mResourceStatus 8 = mixedSolver.mResourceStatus 8 :=
  ⟨_, _, rfl, rfl, rfl, rfl⟩

/-- C13, as stated, fails. With textures 7 and 8 registered, 7 tracked as
`Texture`, `Read`, 1 and currently in layout `Texture`, 8 tracked as `CopySrc`,
`Read`, 3 and currently in `CopySrc`, on a backend that holds all layouts the
same, `resetCopyLayoutsOnly` passes over texture 7, whose entry stays as it was
while resolving it to `CopyEnd` would have changed it, and leaves texture 8 with
the stage mask 3. -/
theorem resetCopyLayoutsOnly_not_resolve_all :
    (¬ ∀ (env : Env) (self : BarrierSolver) (log : ResourceTransitionCollection),
        resetCopyLayoutsOnly env self log =
          (resolveEach env Layout.CopyEnd ResourceAccess.Read 0
            self.mCopyStateTextures self log).thenClearCopyState) ∧
    (¬ ∀ (env : Env) (self : BarrierSolver) (log : ResourceTransitionCollection)
        (solver : BarrierSolver) (log' : ResourceTransitionCollection),
        resetCopyLayoutsOnly env self log = Outcome.ok solver log' →
        ∀ t ∈ self.mCopyStateTextures,
          (env.getCurrentLayout t = Layout.CopySrc ∨
            env.getCurrentLayout t = Layout.CopyDst) →
          solver.mResourceStatus t =
            some { layout := Layout.CopyEnd, access := ResourceAccess.Read,
                   stageMask := 0 }) := by
  constructor
  · intro h
    have h1 := h mixedEnv mixedSolver []
    have h2 : (resetCopyLayoutsOnly mixedEnv mixedSolver []).solver?.map
          (fun solver => solver.mResourceStatus 7) =
        ((resolveEach mixedEnv Layout.CopyEnd ResourceAccess.Read 0
          mixedSolver.mCopyStateTextures mixedSolver []).thenClearCopyState).solver?.map
          (fun solver => solver.mResourceStatus 7) := by
      rw [h1]
    revert h2
    decide
  · intro h
    have h1 := h mixedEnv mixedSolver [] _ _ rfl 8 (by decide) (by decide)
    revert h1
    decide

/-- C13, amended: `resetCopyLayoutsOnly` treats every texture of the registry whose
own current layout is `CopySrc` or `CopyDst` as if `resolveTransition` to `CopyEnd`,
`Read`, 0 were called on it, in the order of the registry, passes over the others,
and then clears the registry: its outcome is that of resolving those textures in
turn and then clearing the registry. When it returns, every such texture has an
entry with layout `CopyEnd` and access `Read`, and with stage mask 0 when it had
no entry, or one with stage mask 0, before the call. -/
theorem resetCopyLayoutsOnly_resolves_copy (env : Env) (self : BarrierSolver)
    (log : ResourceTransitionCollection) :
    resetCopyLayoutsOnly env self log =
      (resolveEach env Layout.CopyEnd ResourceAccess.Read 0
        (self.mCopyStateTextures.filter fun t =>
          decide (env.getCurrentLayout t = Layout.CopySrc ∨
            env.getCurrentLayout t = Layout.CopyDst)) self log).thenClearCopyState ∧
    (∀ (solver : BarrierSolver) (log' : ResourceTransitionCollection),
      resetCopyLayoutsOnly env self log = Outcome.ok solver log' →
      ∀ t ∈ self.mCopyStateTextures,
        (env.getCurrentLayout t = Layout.CopySrc ∨
          env.getCurrentLayout t = Layout.CopyDst) →
        ∃ status, solver.mResourceStatus t = some status ∧
          status.layout = Layout.CopyEnd ∧ status.access = ResourceAccess.Read ∧
          ((∀ tracked, self.mResourceStatus t = some tracked → tracked.stageMask = 0) →
            status.stageMask = 0)) := by
  have heq : resetCopyLayoutsOnly env self log =
      (resolveEach env Layout.CopyEnd ResourceAccess.Read 0
        (self.mCopyStateTextures.filter fun t =>
          decide (env.getCurrentLayout t = Layout.CopySrc ∨
            env.getCurrentLayout t = Layout.CopyDst)) self log).thenClearCopyState := by
    simp only [resetCopyLayoutsOnly, resetCopyLayoutsOnlyLoop_eq_resolveEach]
    cases resolveEach env Layout.CopyEnd ResourceAccess.Read 0
        (self.mCopyStateTextures.filter fun t =>
          decide (env.getCurrentLayout t = Layout.CopySrc ∨
            env.getCurrentLayout t = Layout.CopyDst)) self log <;> rfl
  refine ⟨heq, ?_⟩
  intro solver log' hok t ht hcopy
  rw [heq] at hok
  cases hrun : resolveEach env Layout.CopyEnd ResourceAccess.Read 0
      (self.mCopyStateTextures.filter fun t =>
        decide (env.getCurrentLayout t = Layout.CopySrc ∨
          env.getCurrentLayout t = Layout.CopyDst)) self log with
  | assertFailed =>
    rw [hrun] at hok
    cases hok
  | exception s1 l1 =>
    rw [hrun] at hok
    cases hok
  | ok s1 l1 =>
    rw [hrun] at hok
    simp only [Outcome.thenClearCopyState, Outcome.ok.injEq] at hok
    obtain ⟨hP, hZ⟩ := resolveEach_copyEnd_status env _ self s1 log l1 hrun
    have hmem : t ∈ self.mCopyStateTextures.filter fun t =>
        decide (env.getCurrentLayout t = Layout.CopySrc ∨
          env.getCurrentLayout t = Layout.CopyDst) := by
      simp only [List.mem_filter, decide_eq_true_eq]
      exact ⟨ht, hcopy⟩
    obtain ⟨status, hsome, hl, ha⟩ := hP t (Or.inl hmem)
    rw [← hok.1]
    exact ⟨status, hsome, hl, ha, fun hz => hZ t hz status hsome⟩

theorem resetCopyLayoutsOnly_resolves_copy_witness :
    ∃ status, (copySolver.mResourceStatus.set 7
          { layout := Layout.CopyEnd, access := ResourceAccess.Read, stageMask := 0 }).set 8
          { layout := Layout.CopyEnd, access := ResourceAccess.Read, stageMask := 0 } 7 =
        some status ∧
      status.layout = Layout.CopyEnd ∧ status.access = ResourceAccess.Read ∧
      ((∀ tracked, copySolver.mResourceStatus 7 = some tracked → tracked.stageMask = 0) →
        status.stageMask = 0) :=
  (resetCopyLayoutsOnly_resolves_copy copyEnv copySolver []).2
    { mResourceStatus := (copySolver.mResourceStatus.set 7
          { layout := Layout.CopyEnd, access := ResourceAccess.Read, stageMask := 0 }).set 8
          { layout := Layout.CopyEnd, access := ResourceAccess.Read, stageMask := 0 },
      mCopyStateTextures := [] }
    [{ resource := 7, oldLayout := Layout.CopySrc, newLayout := Layout.CopyEnd,
       oldAccess := ResourceAccess.Read, newAccess := ResourceAccess.Read,
       oldStageMask := 0, newStageMask := 0 },
     { resource := 8, oldLayout := Layout.CopyDst, newLayout := Layout.CopyEnd,
       oldAccess := ResourceAccess.Write, newAccess := ResourceAccess.Read,
       oldStageMask := 0, newStageMask := 0 }]
    rfl 7 (by decide) (by decide)

/-- C14: `reset` is `resetCopyLayoutsOnly` followed, when that returns, by clearing
the status map: the two have the same outcome but for the cleared map, so when
`reset` returns, `resetCopyLayoutsOnly` on the same solver and collection returns
the same collection and the same, empty, registry, and the status map after
`reset` is empty. -/
theorem reset_eq_resetCopyLayoutsOnly (env : Env) (self : BarrierSolver)
    (log : ResourceTransitionCollection) :
    reset env self log = (resetCopyLayoutsOnly env self log).thenClearResourceStatus ∧
    (∀ (solver : BarrierSolver) (log' : ResourceTransitionCollection),
      reset env self log = Outcome.ok solver log' →
      solver.mResourceStatus = ResourceStatusMap.empty ∧
      solver.mCopyStateTextures = [] ∧
      ∃ solver', resetCopyLayoutsOnly env self log = Outcome.ok solver' log' ∧
        solver'.mCopyStateTextures = solver.mCopyStateTextures) := by
  have heq : reset env self log =
      (resetCopyLayoutsOnly env self log).thenClearResourceStatus := by
    simp only [reset, resetCopyLayoutsOnly, resetLoop_eq]
    cases resetCopyLayoutsOnlyLoop env self.mCopyStateTextures self log <;> rfl
  refine ⟨heq, ?_⟩
  intro solver log' hok
  rw [heq] at hok
  cases hrun : resetCopyLayoutsOnly env self log with
  | assertFailed =>
    rw [hrun] at hok
    cases hok
  | exception s1 l1 =>
    rw [hrun] at hok
    cases hok
  | ok s1 l1 =>
    rw [hrun] at hok
    simp only [Outcome.thenClearResourceStatus, Outcome.ok.injEq] at hok
    obtain ⟨h1, h2⟩ := hok
    subst h1 h2
    have hreg : s1.mCopyStateTextures = [] := by
      simp only [resetCopyLayoutsOnly] at hrun
      cases hloop : resetCopyLayoutsOnlyLoop env self.mCopyStateTextures self log with
      | assertFailed =>
        rw [hloop] at hrun
        cases hrun
      | exception s2 l2 =>
        rw [hloop] at hrun
        cases hrun
      | ok s2 l2 =>
        rw [hloop] at hrun
        simp only [Outcome.ok.injEq] at hrun
        rw [← hrun.1]
    exact ⟨rfl, hreg, s1, rfl, rfl⟩

theorem reset_eq_resetCopyLayoutsOnly_witness :
    BarrierSolver.new.mResourceStatus = ResourceStatusMap.empty ∧
    BarrierSolver.new.mCopyStateTextures = [] ∧
    ∃ solver',
      resetCopyLayoutsOnly copyEnv copySolver [] = Outcome.ok solver'
        [{ resource := 7, oldLayout := Layout.CopySrc, newLayout := Layout.CopyEnd,
           oldAccess := ResourceAccess.Read, newAccess := ResourceAccess.Read,
           oldStageMask := 0, newStageMask := 0 },
         { resource := 8, oldLayout := Layout.CopyDst, newLayout := Layout.CopyEnd,
           oldAccess := ResourceAccess.Write, newAccess := ResourceAccess.Read,
           oldStageMask := 0, newStageMask := 0 }] ∧
      solver'.mCopyStateTextures = BarrierSolver.new.mCopyStateTextures :=
  (reset_eq_resetCopyLayoutsOnly copyEnv copySolver []).2 BarrierSolver.new
    [{ resource := 7, oldLayout := Layout.CopySrc, newLayout := Layout.CopyEnd,
       oldAccess := ResourceAccess.Read, newAccess := ResourceAccess.Read,
       oldStageMask := 0, newStageMask := 0 },
     { resource := 8, oldLayout := Layout.CopyDst, newLayout := Layout.CopyEnd,
       oldAccess := ResourceAccess.Write, newAccess := ResourceAccess.Read,
       oldStageMask := 0, newStageMask := 0 }]
    rfl

theorem reset_ok_new (env : Env) (self solver : BarrierSolver)
    (log log' : ResourceTransitionCollection)
    (h : reset env self log = Outcome.ok solver log') : solver = BarrierSolver.new := by
  simp only [reset] at h
  cases hloop : resetLoop env self.mCopyStateTextures self log with
  | assertFailed =>
    rw [hloop] at h
    cases h
  | exception s2 l2 =>
    rw [hloop] at h
    cases h
  | ok s2 l2 =>
    rw [hloop] at h
    simp only [Outcome.ok.injEq] at h
    rw [← h.1]
    rfl

/-- C15: when `reset` returns, the status map has no entry, and a call of either
overload of `resolveTransition` made next, on any resource, with any arguments and
collection, has the outcome (descriptor, exception or assertion, entry, registry)
of the same call on a new solver. -/
theorem reset_then_first_use (env : Env) (self solver : BarrierSolver)
    (log log' : ResourceTransitionCollection)
    (hreset : reset env self log = Outcome.ok solver log') :
    (∀ k, solver.mResourceStatus k = none) ∧
    (∀ (env' : Env) (log2 : ResourceTransitionCollection) (texture : Nat)
        (newLayout : Layout) (access : ResourceAccess) (stageMask : Nat),
      resolveTransition env' solver log2 texture newLayout access stageMask =
        resolveTransition env' BarrierSolver.new log2 texture newLayout access stageMask) ∧
    (∀ (log2 : ResourceTransitionCollection) (bufferRes : Nat)
        (access : ResourceAccess) (stageMask : Nat),
      resolveTransitionBuffer solver log2 bufferRes access stageMask =
        resolveTransitionBuffer BarrierSolver.new log2 bufferRes access stageMask) := by
  have hnew := reset_ok_new env self solver log log' hreset
  subst hnew
  exact ⟨fun _ => rfl, fun _ _ _ _ _ _ => rfl, fun _ _ _ _ => rfl⟩

theorem reset_then_first_use_witness :
    reset copyEnv copySolver [] = Outcome.ok BarrierSolver.new
      [{ resource := 7, oldLayout := Layout.CopySrc, newLayout := Layout.CopyEnd,
         oldAccess := ResourceAccess.Read, newAccess := ResourceAccess.Read,
         oldStageMask := 0, newStageMask := 0 },
       { resource := 8, oldLayout := Layout.CopyDst, newLayout := Layout.CopyEnd,
         oldAccess := ResourceAccess.Write, newAccess := ResourceAccess.Read,
         oldStageMask := 0, newStageMask := 0 }] ∧
    ((∀ k, BarrierSolver.new.mResourceStatus k = none) ∧
    (∀ (env' : Env) (log2 : ResourceTransitionCollection) (texture : Nat)
        (newLayout : Layout) (access : ResourceAccess) (stageMask : Nat),
      resolveTransition env' BarrierSolver.new log2 texture newLayout access stageMask =
        resolveTransition env' BarrierSolver.new log2 texture newLayout access stageMask) ∧
    (∀ (log2 : ResourceTransitionCollection) (bufferRes : Nat)
        (access : ResourceAccess) (stageMask : Nat),
      resolveTransitionBuffer BarrierSolver.new log2 bufferRes access stageMask =
        resolveTransitionBuffer BarrierSolver.new log2 bufferRes access stageMask)) :=
  ⟨rfl, reset_then_first_use copyEnv copySolver BarrierSolver.new []
    [{ resource := 7, oldLayout := Layout.CopySrc, newLayout := Layout.CopyEnd,
       oldAccess := ResourceAccess.Read, newAccess := ResourceAccess.Read,
       oldStageMask := 0, newStageMask := 0 },
     { resource := 8, oldLayout := Layout.CopyDst, newLayout := Layout.CopyEnd,
       oldAccess := ResourceAccess.Write, newAccess := ResourceAccess.Read,
       oldStageMask := 0, newStageMask := 0 }]
    rfl⟩

theorem resolveTransition_log (env : Env) (self : BarrierSolver)
    (log log' : ResourceTransitionCollection) (texture : Nat) (newLayout : Layout)
    (access : ResourceAccess) (stageMask : Nat)
    (h : (resolveTransition env self log texture newLayout access stageMask).log? =
      some log') :
    ∃ added, log' = log ++ added ∧ added.length ≤ 1 ∧
      ∀ resTrans ∈ added, resTrans.resource = texture := by
  cases hrun : resolveTransition env self log texture newLayout access stageMask with
  | assertFailed =>
    rw [hrun] at h
    cases h
  | exception s1 l1 =>
    rw [hrun] at h
    simp only [Outcome.log?, Option.some.injEq] at h
    obtain ⟨_, _, _, _, hlog⟩ :=
      resolveTransition_exception_cases env self s1 log l1 texture _ _ _ hrun
    exact ⟨[], by rw [← h, hlog]; simp, by simp, by simp⟩
  | ok s1 l1 =>
    rw [hrun] at h
    simp only [Outcome.log?, Option.some.injEq] at h
    subst h
    obtain ⟨_, _, hcases⟩ := resolveTransition_ok_cases env self s1 log l1 texture _ _ _ hrun
    rcases hcases with ⟨_, _, d, hd, hlog⟩ | ⟨tracked, _, _, ⟨_, _, hlog⟩ | ⟨_, _, hlog⟩⟩
    · exact ⟨[d], hlog, by simp, by simpa using hd⟩
    · exact ⟨[_], hlog, by simp, by simp⟩
    · exact ⟨[], by rw [hlog]; simp, by simp, by simp⟩

theorem resolveTransitionBuffer_log (self : BarrierSolver)
    (log log' : ResourceTransitionCollection) (bufferRes : Nat)
    (access : ResourceAccess) (stageMask : Nat)
    (h : (resolveTransitionBuffer self log bufferRes access stageMask).log? = some log') :
    ∃ added, log' = log ++ added ∧ added.length ≤ 1 ∧
      ∀ resTrans ∈ added, resTrans.resource = bufferRes := by
  rcases resolveTransitionBuffer_cases self log bufferRes access stageMask with
    hfail | ⟨status, added, hrun, hlen, hres⟩
  · rw [hfail] at h
    cases h
  · rw [hrun] at h
    simp only [Outcome.log?, Option.some.injEq] at h
    exact ⟨added, h.symm, hlen, hres⟩

theorem resetCopyLayoutsOnlyLoop_log (env : Env) (textures : List Nat) :
    ∀ (self : BarrierSolver) (log log' : ResourceTransitionCollection),
      (resetCopyLayoutsOnlyLoop env textures self log).log? = some log' →
      ∃ added, log' = log ++ added := by
  induction textures with
  | nil =>
    intro self log log' h
    simp only [resetCopyLayoutsOnlyLoop, Outcome.log?, Option.some.injEq] at h
    exact ⟨[], by rw [← h]; simp⟩
  | cons texture rest ih =>
    intro self log log' h
    simp only [resetCopyLayoutsOnlyLoop] at h
    split at h
    · cases hstep : resolveTransition env self log texture Layout.CopyEnd
          ResourceAccess.Read 0 with
      | assertFailed =>
        rw [hstep] at h
        cases h
      | exception s1 l1 =>
        rw [hstep] at h
        obtain ⟨added, hadd, _⟩ := resolveTransition_log env self log l1 texture _ _ _
          (by rw [hstep]; rfl)
        simp only [Outcome.log?, Option.some.injEq] at h
        exact ⟨added, by rw [← h, hadd]⟩
      | ok s1 l1 =>
        rw [hstep] at h
        obtain ⟨added, hadd, _⟩ := resolveTransition_log env self log l1 texture _ _ _
          (by rw [hstep]; rfl)
        obtain ⟨added', hadd'⟩ := ih s1 l1 log' h
        exact ⟨added ++ added', by rw [hadd', hadd, List.append_assoc]⟩
    · exact ih self log log' h

theorem resetCopyLayoutsOnly_log (env : Env) (self : BarrierSolver)
    (log log' : ResourceTransitionCollection)
    (h : (resetCopyLayoutsOnly env self log).log? = some log') :
    ∃ added, log' = log ++ added := by
  apply resetCopyLayoutsOnlyLoop_log env self.mCopyStateTextures self log log'
  simp only [resetCopyLayoutsOnly] at h
  cases hloop : resetCopyLayoutsOnlyLoop env self.mCopyStateTextures self log with
  | assertFailed =>
    rw [hloop] at h
    cases h
  | exception s1 l1 =>
    rw [hloop] at h
    exact h
  | ok s1 l1 =>
    rw [hloop] at h
    exact h

theorem reset_log (env : Env) (self : BarrierSolver)
    (log log' : ResourceTransitionCollection)
    (h : (reset env self log).log? = some log') :
    ∃ added, log' = log ++ added := by
  apply resetCopyLayoutsOnlyLoop_log env self.mCopyStateTextures self log log'
  simp only [reset, resetLoop_eq] at h
  cases hloop : resetCopyLayoutsOnlyLoop env self.mCopyStateTextures self log with
  | assertFailed =>
    rw [hloop] at h
    cases h
  | exception s1 l1 =>
    rw [hloop] at h
    exact h
  | ok s1 l1 =>
    rw [hloop] at h
    exact h

theorem run_emits (call : Call) (self : BarrierSolver)
    (log log' : ResourceTransitionCollection)
    (h : (call.run self log).log? = some log') :
    ∃ added, log' = log ++ added ∧ call.emits added := by
  cases call with
  | resolveTexture env texture newLayout access stageMask =>
    exact resolveTransition_log env self log log' texture newLayout access stageMask h
  | resolveBuffer bufferRes access stageMask =>
    exact resolveTransitionBuffer_log self log log' bufferRes access stageMask h
  | assumeTransition texture newLayout access stageMask =>
    simp only [Call.run, assumeTransition] at h
    split at h
    · cases h
    · simp only [Outcome.log?, Option.some.injEq] at h
      exact ⟨[], by rw [← h]; simp, rfl⟩
  | assumeTransitions resourceStatus =>
    simp only [Call.run, assumeTransitions, Outcome.log?, Option.some.injEq] at h
    exact ⟨[], by rw [← h]; simp, rfl⟩
  | resetCopyLayoutsOnly env =>
    obtain ⟨added, hadd⟩ := resetCopyLayoutsOnly_log env self log log' h
    exact ⟨added, hadd, trivial⟩
  | reset env =>
    obtain ⟨added, hadd⟩ := reset_log env self log log' h
    exact ⟨added, hadd, trivial⟩

theorem runCalls_emits (calls : List Call) :
    ∀ (self solver : BarrierSolver) (log log' : ResourceTransitionCollection),
      runCalls calls self log = Outcome.ok solver log' →
      ∃ added : List (List ResourceTransition),
        List.Forall₂ Call.emits calls added ∧ log' = log ++ added.flatten := by
  induction calls with
  | nil =>
    intro self solver log log' h
    simp only [runCalls, Outcome.ok.injEq] at h
    exact ⟨[], List.Forall₂.nil, by rw [← h.2]; simp⟩
  | cons call rest ih =>
    intro self solver log log' h
    simp only [runCalls] at h
    cases hstep : call.run self log with
    | assertFailed =>
      rw [hstep] at h
      cases h
    | exception s1 l1 =>
      rw [hstep] at h
      cases h
    | ok s1 l1 =>
      rw [hstep] at h
      obtain ⟨first, hfirst, hemits⟩ := run_emits call self log l1 (by rw [hstep]; rfl)
      obtain ⟨added, hall, hlog⟩ := ih s1 solver l1 log' h
      exact ⟨first :: added, List.Forall₂.cons hemits hall,
        by rw [hlog, hfirst, List.flatten_cons, List.append_assoc]⟩

/-- C16: each overload of `resolveTransition`, `resetCopyLayoutsOnly` and `reset`
leave a collection that starts with the collection given, whether they return or
throw; each `resolveTransition` adds at most one descriptor, and that descriptor
names the resource of the call; so after a sequence of calls that all return the
collection is the one given followed by what each call added, in the order of the
calls. -/
theorem log_append_only :
    (∀ (env : Env) (self : BarrierSolver) (log log' : ResourceTransitionCollection)
        (texture : Nat) (newLayout : Layout) (access : ResourceAccess) (stageMask : Nat),
      (resolveTransition env self log texture newLayout access stageMask).log? =
        some log' →
      ∃ added, log' = log ++ added ∧ added.length ≤ 1 ∧
        ∀ resTrans ∈ added, resTrans.resource = texture) ∧
    (∀ (self : BarrierSolver) (log log' : ResourceTransitionCollection)
        (bufferRes : Nat) (access : ResourceAccess) (stageMask : Nat),
      (resolveTransitionBuffer self log bufferRes access stageMask).log? = some log' →
      ∃ added, log' = log ++ added ∧ added.length ≤ 1 ∧
        ∀ resTrans ∈ added, resTrans.resource = bufferRes) ∧
    (∀ (env : Env) (self : BarrierSolver) (log log' : ResourceTransitionCollection),
      (resetCopyLayoutsOnly env self log).log? = some log' → log <+: log') ∧
    (∀ (env : Env) (self : BarrierSolver) (log log' : ResourceTransitionCollection),
      (reset env self log).log? = some log' → log <+: log') ∧
    (∀ (calls : List Call) (self solver : BarrierSolver)
        (log log' : ResourceTransitionCollection),
      runCalls calls self log = Outcome.ok solver log' →
      ∃ added : List (List ResourceTransition),
        List.Forall₂ Call.emits calls added ∧ log' = log ++ added.flatten) := by
  refine ⟨resolveTransition_log, resolveTransitionBuffer_log, ?_, ?_, runCalls_emits⟩
  · intro env self log log' h
    obtain ⟨added, hadd⟩ := resetCopyLayoutsOnly_log env self log log' h
    exact ⟨added, hadd.symm⟩
  · intro env self log log' h
    obtain ⟨added, hadd⟩ := reset_log env self log log' h
    exact ⟨added, hadd.symm⟩

theorem log_append_only_witness :
    ∃ added : List (List ResourceTransition),
      List.Forall₂ Call.emits
        [Call.resolveBuffer 3 ResourceAccess.Read 1,
         Call.resolveTexture plainEnv 7 Layout.Uav ResourceAccess.Write 2,
         Call.resolveBuffer 3 ResourceAccess.Write 1] added ∧
      [{ resource := 7, oldLayout := Layout.Texture, newLayout := Layout.Uav,
         oldAccess := ResourceAccess.Undefined, newAccess := ResourceAccess.Write,
         oldStageMask := 0, newStageMask := 2 },
       { resource := 3, oldLayout := Layout.Undefined, newLayout := Layout.Undefined,
         oldAccess := ResourceAccess.Read, newAccess := ResourceAccess.Write,
         oldStageMask := 1, newStageMask := 1 }] = [] ++ added.flatten :=
  log_append_only.2.2.2.2
    [Call.resolveBuffer 3 ResourceAccess.Read 1,
     Call.resolveTexture plainEnv 7 Layout.Uav ResourceAccess.Write 2,
     Call.resolveBuffer 3 ResourceAccess.Write 1]
    BarrierSolver.new
    { mResourceStatus := ((ResourceStatusMap.empty.set 3
          { layout := Layout.Undefined, access := ResourceAccess.Read, stageMask := 1 }).set 7
          { layout := Layout.Uav, access := ResourceAccess.Write, stageMask := 2 }).set 3
          { layout := Layout.Undefined, access := ResourceAccess.Write,
            stageMask := (0 ||| 1) % 256 },
      mCopyStateTextures := [] }
    [] _ rfl

theorem pushCopyState_copy (mCopyStateTextures : List Nat) (texture : Nat)
    (newLayout : Layout) (hcopy : newLayout = Layout.CopySrc ∨ newLayout = Layout.CopyDst) :
    pushCopyState mCopyStateTextures texture newLayout =
      if mCopyStateTextures = [] ∨ mCopyStateTextures.getLast? ≠ some texture then
        mCopyStateTextures ++ [texture]
      else mCopyStateTextures := by
  simp only [pushCopyState, hcopy, ↓reduceIte]

theorem resolveTexture_ok_registry (env : Env) (self solver : BarrierSolver)
    (log log' : ResourceTransitionCollection) (texture : Nat) (newLayout : Layout)
    (access : ResourceAccess) (stageMask : Nat)
    (h : (Call.resolveTexture env texture newLayout access stageMask).run self log =
      Outcome.ok solver log') :
    solver.mCopyStateTextures = pushCopyState self.mCopyStateTextures texture newLayout :=
  (resolveTransition_ok_cases env self solver log log' texture newLayout access stageMask
    h).2.1

/-- C18: with arguments that pass the assertions (and, for a tracked texture, the
one on its current layout), the texture overload of `resolveTransition` returns or
throws, and leaves the registry with the texture appended when the new layout is
`CopySrc` or `CopyDst` and the registry was empty or ended with another texture,
and as it was otherwise. So resolving a texture, then another one, then the first
again, all to copy layouts, appends the first texture twice, while resolving it
twice in a row appends it once. -/
theorem resolveTransition_registry :
    (∀ (env : Env) (self : BarrierSolver) (log : ResourceTransitionCollection)
        (texture : Nat) (newLayout : Layout) (access : ResourceAccess) (stageMask : Nat),
      resolveTransitionAsserts newLayout access stageMask = true →
      (∀ tracked, self.mResourceStatus texture = some tracked →
        env.isSameLayout tracked.layout (env.getCurrentLayout texture) texture = true) →
      ∃ solver,
        (resolveTransition env self log texture newLayout access stageMask).solver? =
          some solver ∧
        solver.mCopyStateTextures =
          if (newLayout = Layout.CopySrc ∨ newLayout = Layout.CopyDst) ∧
              (self.mCopyStateTextures = [] ∨
                self.mCopyStateTextures.getLast? ≠ some texture)
          then self.mCopyStateTextures ++ [texture] else self.mCopyStateTextures) ∧
    (∀ (first second third : Env) (self solver : BarrierSolver)
        (log log' : ResourceTransitionCollection) (texture another : Nat)
        (l1 l2 l3 : Layout) (a1 a2 a3 : ResourceAccess) (m1 m2 m3 : Nat),
      texture ≠ another →
      (l1 = Layout.CopySrc ∨ l1 = Layout.CopyDst) →
      (l2 = Layout.CopySrc ∨ l2 = Layout.CopyDst) →
      (l3 = Layout.CopySrc ∨ l3 = Layout.CopyDst) →
      (self.mCopyStateTextures = [] ∨ self.mCopyStateTextures.getLast? ≠ some texture) →
      runCalls [Call.resolveTexture first texture l1 a1 m1,
                Call.resolveTexture second another l2 a2 m2,
                Call.resolveTexture third texture l3 a3 m3] self log =
        Outcome.ok solver log' →
      solver.mCopyStateTextures = self.mCopyStateTextures ++ [texture, another, texture]) ∧
    (∀ (first second : Env) (self solver : BarrierSolver)
        (log log' : ResourceTransitionCollection) (texture : Nat)
        (l1 l2 : Layout) (a1 a2 : ResourceAccess) (m1 m2 : Nat),
      (l1 = Layout.CopySrc ∨ l1 = Layout.CopyDst) →
      (l2 = Layout.CopySrc ∨ l2 = Layout.CopyDst) →
      (self.mCopyStateTextures = [] ∨ self.mCopyStateTextures.getLast? ≠ some texture) →
      runCalls [Call.resolveTexture first texture l1 a1 m1,
                Call.resolveTexture second texture l2 a2 m2] self log =
        Outcome.ok solver log' →
      solver.mCopyStateTextures = self.mCopyStateTextures ++ [texture]) := by
  refine ⟨?_, ?_, ?_⟩
  · intro env self log texture newLayout access stageMask hvalid hcurrent
    have hpush : pushCopyState self.mCopyStateTextures texture newLayout =
        if (newLayout = Layout.CopySrc ∨ newLayout = Layout.CopyDst) ∧
            (self.mCopyStateTextures = [] ∨
              self.mCopyStateTextures.getLast? ≠ some texture)
        then self.mCopyStateTextures ++ [texture] else self.mCopyStateTextures := by
      unfold pushCopyState
      by_cases h1 : newLayout = Layout.CopySrc ∨ newLayout = Layout.CopyDst
      · simp only [h1, true_and, ↓reduceIte]
      · simp only [h1, false_and, ↓reduceIte]
    unfold resolveTransition
    simp only [hvalid, Bool.true_eq_false, ↓reduceIte]
    cases hst : self.mResourceStatus texture with
    | none =>
      by_cases hd : env.isDiscardableContent texture = true
      · by_cases ha : access = ResourceAccess.Read
        · simp only [hd, ha, ↓reduceIte]
          exact ⟨_, rfl, hpush⟩
        · simp only [hd, ha, ↓reduceIte]
          exact ⟨_, rfl, hpush⟩
      · simp only [hd, Bool.false_eq_true, ↓reduceIte]
        exact ⟨_, rfl, hpush⟩
    | some tracked =>
      simp only [hcurrent tracked hst, Bool.true_eq_false, ↓reduceIte]
      by_cases hn : needsTransition env tracked texture newLayout access = true
      · simp only [hn, ↓reduceIte]
        exact ⟨_, rfl, hpush⟩
      · simp only [hn, Bool.false_eq_true, ↓reduceIte]
        exact ⟨_, rfl, hpush⟩
  · intro first second third self solver log log' texture another l1 l2 l3 a1 a2 a3
      m1 m2 m3 hne h1 h2 h3 hlast hrun
    simp only [runCalls] at hrun
    cases hs1 : (Call.resolveTexture first texture l1 a1 m1).run self log with
    | assertFailed => rw [hs1] at hrun; cases hrun
    | exception s1 g1 => rw [hs1] at hrun; cases hrun
    | ok s1 g1 =>
      rw [hs1] at hrun
      simp only at hrun
      cases hs2 : (Call.resolveTexture second another l2 a2 m2).run s1 g1 with
      | assertFailed => rw [hs2] at hrun; cases hrun
      | exception s2 g2 => rw [hs2] at hrun; cases hrun
      | ok s2 g2 =>
        rw [hs2] at hrun
        simp only at hrun
        cases hs3 : (Call.resolveTexture third texture l3 a3 m3).run s2 g2 with
        | assertFailed => rw [hs3] at hrun; cases hrun
        | exception s3 g3 => rw [hs3] at hrun; cases hrun
        | ok s3 g3 =>
          rw [hs3] at hrun
          simp only [Outcome.ok.injEq] at hrun
          obtain ⟨hsol, _⟩ := hrun
          subst hsol
          have r1 := resolveTexture_ok_registry _ _ _ _ _ _ _ _ _ hs1
          have r2 := resolveTexture_ok_registry _ _ _ _ _ _ _ _ _ hs2
          have r3 := resolveTexture_ok_registry _ _ _ _ _ _ _ _ _ hs3
          rw [pushCopyState_copy _ _ _ h1, if_pos hlast] at r1
          rw [pushCopyState_copy _ _ _ h2, r1] at r2
          have hother : (self.mCopyStateTextures ++ [texture] = [] ∨
              (self.mCopyStateTextures ++ [texture]).getLast? ≠ some another) := by
            right
            simp [hne]
          rw [if_pos hother] at r2
          rw [pushCopyState_copy _ _ _ h3, r2] at r3
          have hagain : (self.mCopyStateTextures ++ [texture] ++ [another] = [] ∨
              (self.mCopyStateTextures ++ [texture] ++ [another]).getLast? ≠
                some texture) := by
            right
            simp [Ne.symm hne]
          rw [if_pos hagain] at r3
          rw [r3]
          simp
  · intro first second self solver log log' texture l1 l2 a1 a2 m1 m2 h1 h2 hlast hrun
    simp only [runCalls] at hrun
    cases hs1 : (Call.resolveTexture first texture l1 a1 m1).run self log with
    | assertFailed => rw [hs1] at hrun; cases hrun
    | exception s1 g1 => rw [hs1] at hrun; cases hrun
    | ok s1 g1 =>
      rw [hs1] at hrun
      simp only at hrun
      cases hs2 : (Call.resolveTexture second texture l2 a2 m2).run s1 g1 with
      | assertFailed => rw [hs2] at hrun; cases hrun
      | exception s2 g2 => rw [hs2] at hrun; cases hrun
      | ok s2 g2 =>
        rw [hs2] at hrun
        simp only [Outcome.ok.injEq] at hrun
        obtain ⟨hsol, _⟩ := hrun
        subst hsol
        have r1 := resolveTexture_ok_registry _ _ _ _ _ _ _ _ _ hs1
        have r2 := resolveTexture_ok_registry _ _ _ _ _ _ _ _ _ hs2
        rw [pushCopyState_copy _ _ _ h1, if_pos hlast] at r1
        rw [pushCopyState_copy _ _ _ h2, r1] at r2
        have hsame : ¬ (self.mCopyStateTextures ++ [texture] = [] ∨
            (self.mCopyStateTextures ++ [texture]).getLast? ≠ some texture) := by
          simp
        rw [if_neg hsame] at r2
        exact r2

theorem resolveTransition_registry_witness :
    ∃ solver,
      runCalls [Call.resolveTexture lenientEnv 7 Layout.CopySrc ResourceAccess.Read 0,
                Call.resolveTexture lenientEnv 8 Layout.CopyDst ResourceAccess.Write 0,
                Call.resolveTexture lenientEnv 7 Layout.CopyDst ResourceAccess.Write 0]
          BarrierSolver.new [] =
        Outcome.ok solver
          [{ resource := 7, oldLayout := Layout.Uav, newLayout := Layout.CopySrc,
             oldAccess := ResourceAccess.Undefined, newAccess := ResourceAccess.Read,
             oldStageMask := 0, newStageMask := 0 },
           { resource := 8, oldLayout := Layout.Uav, newLayout := Layout.CopyDst,
             oldAccess := ResourceAccess.Undefined, newAccess := ResourceAccess.Write,
             oldStageMask := 0, newStageMask := 0 }] ∧
      solver.mCopyStateTextures = BarrierSolver.new.mCopyStateTextures ++ [7, 8, 7] :=
  ⟨_, rfl, resolveTransition_registry.2.1 lenientEnv lenientEnv lenientEnv
    BarrierSolver.new _ [] _ 7 8 Layout.CopySrc Layout.CopyDst Layout.CopyDst
    ResourceAccess.Read ResourceAccess.Write ResourceAccess.Write 0 0 0
    (by decide) (Or.inl rfl) (Or.inr rfl) (Or.inr rfl) (Or.inl rfl) rfl⟩

/-- C19: the assertions at the head of the texture overload of `resolveTransition`
all pass exactly when the new layout and the access are not `Undefined`, the
stage mask is 0 exactly when the new layout is neither `Texture` nor `Uav`, and
the layout and access are a pair of the legality table; when one does not pass the
call ends in the assertion. The assertion of `assumeTransition` passes for exactly
the pairs of the same table, which are those the layout and access assertion of
`resolveTransition` passes for. -/
theorem asserts_iff_legal :
    (∀ (newLayout : Layout) (access : ResourceAccess) (stageMask : Nat),
      resolveTransitionAsserts newLayout access stageMask = true ↔
        (newLayout ≠ Layout.Undefined ∧ access ≠ ResourceAccess.Undefined ∧
          (stageMask = 0 ↔ (newLayout ≠ Layout.Texture ∧ newLayout ≠ Layout.Uav)) ∧
          legalLayoutAccess newLayout access = true)) ∧
    (∀ (env : Env) (self : BarrierSolver) (log : ResourceTransitionCollection)
        (texture : Nat) (newLayout : Layout) (access : ResourceAccess) (stageMask : Nat),
      resolveTransitionAsserts newLayout access stageMask = false →
      resolveTransition env self log texture newLayout access stageMask =
        Outcome.assertFailed) ∧
    (∀ (newLayout : Layout) (access : ResourceAccess),
      assertLayoutAccess newLayout access = legalLayoutAccess newLayout access) ∧
    (∀ (self : BarrierSolver) (log : ResourceTransitionCollection) (texture : Nat)
        (newLayout : Layout) (access : ResourceAccess) (stageMask : Nat),
      (∃ solver log', assumeTransition self log texture newLayout access stageMask =
          Outcome.ok solver log') ↔ legalLayoutAccess newLayout access = true) := by
  have htable : ∀ (newLayout : Layout) (access : ResourceAccess),
      assertLayoutAccess newLayout access = legalLayoutAccess newLayout access := by
    intro newLayout access
    cases newLayout <;> cases access <;> simp [assertLayoutAccess, legalLayoutAccess]
  refine ⟨?_, ?_, htable, ?_⟩
  · intro newLayout access stageMask
    simp only [resolveTransitionAsserts, htable]
    cases newLayout <;> cases access <;>
      simp [assertNotUndefined, assertStageMask, legalLayoutAccess]
  · intro env self log texture newLayout access stageMask h
    simp only [resolveTransition, h, ↓reduceIte]
  · intro self log texture newLayout access stageMask
    rw [← htable]
    unfold assumeTransition
    by_cases h : assertLayoutAccess newLayout access = true
    · simp only [h, Bool.true_eq_false, ↓reduceIte, iff_true]
      exact ⟨_, _, rfl⟩
    · have hf : assertLayoutAccess newLayout access = false := by simpa using h
      simp only [hf, ↓reduceIte, Bool.false_eq_true, iff_false]
      rintro ⟨solver, log', hrun⟩
      cases hrun

theorem asserts_iff_legal_witness :
    resolveTransitionAsserts Layout.MipmapGen ResourceAccess.ReadWrite 0 = true :=
  (asserts_iff_legal.1 Layout.MipmapGen ResourceAccess.ReadWrite 0).2
    ⟨by decide, by decide, by decide, by decide⟩

theorem resetCopyLayoutsOnlyLoop_preserves (env : Env) (P : BarrierSolver → Prop)
    (hstep : ∀ (self solver : BarrierSolver) (log : ResourceTransitionCollection)
      (texture : Nat), P self →
      (resolveTransition env self log texture Layout.CopyEnd
        ResourceAccess.Read 0).solver? = some solver → P solver)
    (textures : List Nat) :
    ∀ (self solver : BarrierSolver) (log : ResourceTransitionCollection), P self →
      (resetCopyLayoutsOnlyLoop env textures self log).solver? = some solver →
      P solver := by
  induction textures with
  | nil =>
    intro self solver log hP h
    simp only [resetCopyLayoutsOnlyLoop, Outcome.solver?, Option.some.injEq] at h
    exact h ▸ hP
  | cons texture rest ih =>
    intro self solver log hP h
    simp only [resetCopyLayoutsOnlyLoop] at h
    split at h
    · cases hrun : resolveTransition env self log texture Layout.CopyEnd
          ResourceAccess.Read 0 with
      | assertFailed =>
        rw [hrun] at h
        cases h
      | exception s1 l1 =>
        rw [hrun] at h
        exact hstep self solver log texture hP (by rw [hrun]; exact h)
      | ok s1 l1 =>
        rw [hrun] at h
        exact ih s1 solver l1 (hstep self s1 log texture hP (by rw [hrun]; rfl)) h
    · exact ih self solver log hP h

theorem resets_preserve (env : Env) (P : BarrierSolver → Prop)
    (hstep : ∀ (self solver : BarrierSolver) (log : ResourceTransitionCollection)
      (texture : Nat), P self →
      (resolveTransition env self log texture Layout.CopyEnd
        ResourceAccess.Read 0).solver? = some solver → P solver)
    (hclear : ∀ self : BarrierSolver, P self →
      P { mResourceStatus := self.mResourceStatus, mCopyStateTextures := [] })
    (hnew : P BarrierSolver.new)
    (self solver : BarrierSolver) (log : ResourceTransitionCollection) (hP : P self) :
    ((resetCopyLayoutsOnly env self log).solver? = some solver → P solver) ∧
    ((reset env self log).solver? = some solver → P solver) := by
  constructor
  · intro h
    simp only [resetCopyLayoutsOnly] at h
    cases hloop : resetCopyLayoutsOnlyLoop env self.mCopyStateTextures self log with
    | assertFailed =>
      rw [hloop] at h
      cases h
    | exception s1 l1 =>
      rw [hloop] at h
      exact resetCopyLayoutsOnlyLoop_preserves env P hstep _ self solver log hP
        (by rw [hloop]; exact h)
    | ok s1 l1 =>
      rw [hloop] at h
      simp only [Outcome.solver?, Option.some.injEq] at h
      rw [← h]
      exact hclear s1 (resetCopyLayoutsOnlyLoop_preserves env P hstep _ self s1 log hP
        (by rw [hloop]; rfl))
  · intro h
    simp only [reset, resetLoop_eq] at h
    cases hloop : resetCopyLayoutsOnlyLoop env self.mCopyStateTextures self log with
    | assertFailed =>
      rw [hloop] at h
      cases h
    | exception s1 l1 =>
      rw [hloop] at h
      exact resetCopyLayoutsOnlyLoop_preserves env P hstep _ self solver log hP
        (by rw [hloop]; exact h)
    | ok s1 l1 =>
      rw [hloop] at h
      simp only [Outcome.solver?, Option.some.injEq] at h
      rw [← h]
      exact hnew

theorem reachable_invariant (allowed : Call → Prop) (P : BarrierSolver → Prop)
    (hnew : P BarrierSolver.new)
    (hstep : ∀ (call : Call) (self solver : BarrierSolver)
      (log : ResourceTransitionCollection), allowed call → P self →
      (call.run self log).solver? = some solver → P solver)
    (self : BarrierSolver) (h : Reachable allowed self) : P self := by
  induction h with
  | new => exact hnew
  | returned call self solver log log' _ hallowed hrun ih =>
    exact hstep call self solver log hallowed ih (by rw [hrun]; rfl)
  | threw call self solver log log' _ hallowed hrun ih =>
    exact hstep call self solver log hallowed ih (by rw [hrun]; rfl)

theorem resolveTransition_solver_cases (env : Env) (self solver : BarrierSolver)
    (log : ResourceTransitionCollection) (texture : Nat) (newLayout : Layout)
    (access : ResourceAccess) (stageMask : Nat)
    (h : (resolveTransition env self log texture newLayout access stageMask).solver? =
      some solver) :
    resolveTransitionAsserts newLayout access stageMask = true ∧
    solver.mCopyStateTextures = pushCopyState self.mCopyStateTextures texture newLayout ∧
    ∃ mask, solver.mResourceStatus = self.mResourceStatus.set texture
        { layout := newLayout, access := access, stageMask := mask } ∧
      (mask = stageMask ∨ mask = (0 ||| stageMask) % 256 ∨
        ∃ tracked, self.mResourceStatus texture = some tracked ∧
          needsTransition env tracked texture newLayout access = false ∧
          mask = (tracked.stageMask ||| stageMask) % 256) := by
  cases hrun : resolveTransition env self log texture newLayout access stageMask with
  | assertFailed =>
    rw [hrun] at h
    cases h
  | exception s1 l1 =>
    rw [hrun] at h
    simp only [Outcome.solver?, Option.some.injEq] at h
    subst h
    obtain ⟨hvalid, _, hreg, hset, _⟩ :=
      resolveTransition_exception_cases env self s1 log l1 texture _ _ _ hrun
    exact ⟨hvalid, hreg, stageMask, hset, Or.inl rfl⟩
  | ok s1 l1 =>
    rw [hrun] at h
    simp only [Outcome.solver?, Option.some.injEq] at h
    subst h
    obtain ⟨hvalid, hreg, hcases⟩ :=
      resolveTransition_ok_cases env self s1 log l1 texture _ _ _ hrun
    refine ⟨hvalid, hreg, ?_⟩
    rcases hcases with ⟨_, hset, _⟩ | ⟨tracked, hsome, _, ⟨_, hset, _⟩ | ⟨hn, hset, _⟩⟩
    · exact ⟨_, hset, Or.inl rfl⟩
    · exact ⟨_, hset, Or.inr (Or.inl rfl)⟩
    · exact ⟨_, hset, Or.inr (Or.inr ⟨tracked, hsome, hn, rfl⟩)⟩

theorem mem_pushCopyState (mCopyStateTextures : List Nat) (texture t : Nat)
    (newLayout : Layout) (h : t ∈ pushCopyState mCopyStateTextures texture newLayout) :
    t ∈ mCopyStateTextures ∨ t = texture := by
  unfold pushCopyState at h
  split at h
  · split at h
    · rcases List.mem_append.mp h with h | h
      · exact Or.inl h
      · exact Or.inr (by simpa using h)
    · exact Or.inl h
  · exact Or.inl h

theorem tracked_registry_step (call : Call) (self solver : BarrierSolver)
    (log : ResourceTransitionCollection)
    (hP : ∀ t ∈ self.mCopyStateTextures, ∃ status, self.mResourceStatus t = some status)
    (h : (call.run self log).solver? = some solver) :
    ∀ t ∈ solver.mCopyStateTextures, ∃ status, solver.mResourceStatus t = some status := by
  have htexture : ∀ (env : Env) (self solver : BarrierSolver)
      (log : ResourceTransitionCollection) (texture : Nat) (newLayout : Layout)
      (access : ResourceAccess) (stageMask : Nat),
      (∀ t ∈ self.mCopyStateTextures, ∃ status, self.mResourceStatus t = some status) →
      (resolveTransition env self log texture newLayout access stageMask).solver? =
        some solver →
      ∀ t ∈ solver.mCopyStateTextures,
        ∃ status, solver.mResourceStatus t = some status := by
    intro env self solver log texture newLayout access stageMask hP h t ht
    obtain ⟨_, hreg, mask, hset, _⟩ :=
      resolveTransition_solver_cases env self solver log texture _ _ _ h
    rw [hreg] at ht
    rw [hset]
    by_cases heq : t = texture
    · subst heq
      exact ⟨_, set_self _ _ _⟩
    · rw [set_other _ _ _ _ heq]
      rcases mem_pushCopyState _ _ _ _ ht with ht | ht
      · exact hP t ht
      · exact absurd ht heq
  cases call with
  | resolveTexture env texture newLayout access stageMask =>
    exact htexture env self solver log texture newLayout access stageMask hP h
  | resolveBuffer bufferRes access stageMask =>
    rcases resolveTransitionBuffer_cases self log bufferRes access stageMask with
      hfail | ⟨status, added, hrun, _, _⟩
    · simp only [Call.run, hfail] at h
      cases h
    · simp only [Call.run, hrun, Outcome.solver?, Option.some.injEq] at h
      subst h
      intro t ht
      by_cases heq : t = bufferRes
      · subst heq
        exact ⟨_, set_self _ _ _⟩
      · simp only [set_other _ _ _ _ heq]
        exact hP t ht
  | assumeTransition texture newLayout access stageMask =>
    simp only [Call.run, assumeTransition] at h
    split at h
    · cases h
    · simp only [Outcome.solver?, Option.some.injEq] at h
      subst h
      intro t ht
      by_cases heq : t = texture
      · subst heq
        exact ⟨_, set_self _ _ _⟩
      · simp only [set_other _ _ _ _ heq]
        exact hP t ht
  | assumeTransitions resourceStatus =>
    simp only [Call.run, assumeTransitions, Outcome.solver?, Option.some.injEq] at h
    subst h
    intro t ht
    obtain ⟨status, hsome⟩ := hP t ht
    exact ⟨status, by simp only [insertRange, hsome]⟩
  | resetCopyLayoutsOnly env =>
    exact (resets_preserve env
      (fun s => ∀ t ∈ s.mCopyStateTextures, ∃ status, s.mResourceStatus t = some status)
      (fun s s1 l t hs hrun => htexture env s s1 l t _ _ _ hs hrun)
      (fun s _ t ht => by simp at ht)
      (fun t ht => by simp [BarrierSolver.new] at ht)
      self solver log hP).1 h
  | reset env =>
    exact (resets_preserve env
      (fun s => ∀ t ∈ s.mCopyStateTextures, ∃ status, s.mResourceStatus t = some status)
      (fun s s1 l t hs hrun => htexture env s s1 l t _ _ _ hs hrun)
      (fun s _ t ht => by simp at ht)
      (fun t ht => by simp [BarrierSolver.new] at ht)
      self solver log hP).2 h

theorem resetCopyLayoutsOnlyLoop_no_exception (env : Env) (textures : List Nat) :
    ∀ (self : BarrierSolver) (log : ResourceTransitionCollection),
      (∀ t ∈ textures, ∃ status, self.mResourceStatus t = some status) →
      (resetCopyLayoutsOnlyLoop env textures self log).isException = false := by
  induction textures with
  | nil =>
    intro self log _
    rfl
  | cons texture rest ih =>
    intro self log htracked
    simp only [resetCopyLayoutsOnlyLoop]
    split
    · cases hrun : resolveTransition env self log texture Layout.CopyEnd
          ResourceAccess.Read 0 with
      | assertFailed => rfl
      | exception s1 l1 =>
        obtain ⟨_, hnone, _⟩ :=
          resolveTransition_exception_cases env self s1 log l1 texture _ _ _ hrun
        obtain ⟨status, hsome⟩ := htracked texture (List.mem_cons_self _ _)
        rw [hnone] at hsome
        cases hsome
      | ok s1 l1 =>
        apply ih s1 l1
        intro t ht
        obtain ⟨_, _, mask, hset, _⟩ :=
          resolveTransition_solver_cases env self s1 log texture _ _ _
            (by rw [hrun]; rfl)
        rw [hset]
        by_cases heq : t = texture
        · subst heq
          exact ⟨_, set_self _ _ _⟩
        · rw [set_other _ _ _ _ heq]
          exact htracked t (List.mem_cons_of_mem _ ht)
    · exact ih self log (fun t ht => htracked t (List.mem_cons_of_mem _ ht))

/-- C20: in every solver reached from a new one by calls of any kind (both
overloads of `resolveTransition`, also when the call throws, `assumeTransition`,
`assumeTransitions`, `resetCopyLayoutsOnly`, `reset`), every texture of the
registry has an entry in the status map; so the calls that `resetCopyLayoutsOnly`
and `reset` make find the texture tracked, and neither of the two ever throws. -/
theorem registry_tracked (self : BarrierSolver)
    (hreach : Reachable (fun _ => True) self) :
    (∀ t ∈ self.mCopyStateTextures, ∃ status, self.mResourceStatus t = some status) ∧
    (∀ (env : Env) (log : ResourceTransitionCollection),
      (∀ t ∈ self.mCopyStateTextures,
        (resolveTransition env self log t Layout.CopyEnd
          ResourceAccess.Read 0).isException = false) ∧
      (resetCopyLayoutsOnly env self log).isException = false ∧
      (reset env self log).isException = false) := by
  have hinv : ∀ t ∈ self.mCopyStateTextures,
      ∃ status, self.mResourceStatus t = some status :=
    reachable_invariant (fun _ => True)
      (fun s => ∀ t ∈ s.mCopyStateTextures, ∃ status, s.mResourceStatus t = some status)
      (fun t ht => by simp [BarrierSolver.new] at ht)
      (fun call s s1 log _ hP hrun => tracked_registry_step call s s1 log hP hrun)
      self hreach
  refine ⟨hinv, fun env log => ⟨?_, ?_, ?_⟩⟩
  · intro t ht
    cases hrun : resolveTransition env self log t Layout.CopyEnd ResourceAccess.Read 0 with
    | assertFailed => rfl
    | ok s1 l1 => rfl
    | exception s1 l1 =>
      obtain ⟨_, hnone, _⟩ :=
        resolveTransition_exception_cases env self s1 log l1 t _ _ _ hrun
      obtain ⟨status, hsome⟩ := hinv t ht
      rw [hnone] at hsome
      cases hsome
  · have hloop := resetCopyLayoutsOnlyLoop_no_exception env self.mCopyStateTextures
      self log hinv
    simp only [resetCopyLayoutsOnly]
    cases hrun : resetCopyLayoutsOnlyLoop env self.mCopyStateTextures self log with
    | assertFailed => rfl
    | ok s1 l1 => rfl
    | exception s1 l1 =>
      rw [hrun] at hloop
      cases hloop
  · have hloop := resetCopyLayoutsOnlyLoop_no_exception env self.mCopyStateTextures
      self log hinv
    simp only [reset, resetLoop_eq]
    cases hrun : resetCopyLayoutsOnlyLoop env self.mCopyStateTextures self log with
    | assertFailed => rfl
    | ok s1 l1 => rfl
    | exception s1 l1 =>
      rw [hrun] at hloop
      cases hloop

theorem registry_tracked_witness :
    (∀ t ∈ [7], ∃ status, (BarrierSolver.new.mResourceStatus.set 7
        { layout := Layout.CopySrc, access := ResourceAccess.Read, stageMask := 0 }) t =
      some status) ∧
    (∀ (env : Env) (log : ResourceTransitionCollection),
      (∀ t ∈ [7],
        (resolveTransition env
          { mResourceStatus := BarrierSolver.new.mResourceStatus.set 7
              { layout := Layout.CopySrc, access := ResourceAccess.Read, stageMask := 0 },
            mCopyStateTextures := [7] }
          log t Layout.CopyEnd ResourceAccess.Read 0).isException = false) ∧
      (resetCopyLayoutsOnly env
          { mResourceStatus := BarrierSolver.new.mResourceStatus.set 7
              { layout := Layout.CopySrc, access := ResourceAccess.Read, stageMask := 0 },
            mCopyStateTextures := [7] } log).isException = false ∧
      (reset env
          { mResourceStatus := BarrierSolver.new.mResourceStatus.set 7
              { layout := Layout.CopySrc, access := ResourceAccess.Read, stageMask := 0 },
            mCopyStateTextures := [7] } log).isException = false) :=
  registry_tracked
    { mResourceStatus := BarrierSolver.new.mResourceStatus.set 7
        { layout := Layout.CopySrc, access := ResourceAccess.Read, stageMask := 0 },
      mCopyStateTextures := [7] }
    (Reachable.threw
      (Call.resolveTexture discardEnv 7 Layout.CopySrc ResourceAccess.Read 0)
      BarrierSolver.new _ [] [] Reachable.new trivial rfl)

theorem or_mod_ne_zero (a b : Nat) (hb : b < 256) (hne : b ≠ 0) : (a ||| b) % 256 ≠ 0 := by
  intro hzero
  apply hne
  apply Nat.eq_of_testBit_eq
  intro i
  rw [Nat.zero_testBit]
  by_cases hi : i < 8
  · have h := congrArg (fun n => n.testBit i) hzero
    simp only [Nat.zero_testBit] at h
    have h256 : (256 : Nat) = 2 ^ 8 := by norm_num
    rw [h256, Nat.testBit_mod_two_pow, Nat.testBit_or] at h
    simp only [hi, decide_True, Bool.true_and, Bool.or_eq_false_iff] at h
    exact h.2
  · apply Nat.testBit_lt_two_pow
    calc b < 2 ^ 8 := by simpa using hb
      _ ≤ 2 ^ i := Nat.pow_le_pow_right (by norm_num) (by omega)

theorem asserts_stageMask (newLayout : Layout) (access : ResourceAccess) (stageMask : Nat)
    (h : resolveTransitionAsserts newLayout access stageMask = true) :
    stageMask = 0 ↔ (newLayout ≠ Layout.Texture ∧ newLayout ≠ Layout.Uav) := by
  simp only [resolveTransitionAsserts, assertStageMask, Bool.and_eq_true,
    decide_eq_true_eq] at h
  obtain ⟨⟨_, h1, h2⟩, _⟩ := h
  constructor
  · intro hz
    rcases h2 with h2 | h2 | h2
    · exact h2
    · exact absurd hz h2.2
    · exact absurd hz h2.2
  · rintro ⟨hT, hU⟩
    rcases h1 with h1 | h1 | h1
    · exact absurd h1 hT
    · exact absurd h1 hU
    · exact h1

theorem stageMask_step (env : Env) (self solver : BarrierSolver)
    (log : ResourceTransitionCollection) (texture : Nat) (newLayout : Layout)
    (access : ResourceAccess) (stageMask : Nat) (hmask : stageMask < 256)
    (h : (resolveTransition env self log texture newLayout access stageMask).solver? =
      some solver) :
    ((∀ k status, self.mResourceStatus k = some status →
        (status.layout = Layout.Texture ∨ status.layout = Layout.Uav) →
        status.stageMask ≠ 0) →
      ∀ k status, solver.mResourceStatus k = some status →
        (status.layout = Layout.Texture ∨ status.layout = Layout.Uav) →
        status.stageMask ≠ 0) ∧
    (env.separatesStageLayouts →
      (∀ k status, self.mResourceStatus k = some status →
        (status.stageMask = 0 ↔
          (status.layout ≠ Layout.Texture ∧ status.layout ≠ Layout.Uav))) →
      ∀ k status, solver.mResourceStatus k = some status →
        (status.stageMask = 0 ↔
          (status.layout ≠ Layout.Texture ∧ status.layout ≠ Layout.Uav))) := by
  obtain ⟨hvalid, _, mask, hset, hcases⟩ :=
    resolveTransition_solver_cases env self solver log texture _ _ _ h
  have hzero := asserts_stageMask newLayout access stageMask hvalid
  have hz0 : (0 ||| stageMask) % 256 = stageMask := zero_or_mod_uint8 stageMask hmask
  constructor
  · intro hinv k status hsome hlayout
    rw [hset] at hsome
    by_cases heq : k = texture
    · subst heq
      rw [set_self] at hsome
      have hst := Option.some.inj hsome
      subst hst
      have hne : stageMask ≠ 0 := by
        intro hz
        have := hzero.mp hz
        rcases hlayout with hl | hl
        · exact this.1 hl
        · exact this.2 hl
      rcases hcases with hm | hm | ⟨tracked, _, _, hm⟩
      · simp only [hm]
        exact hne
      · simp only [hm, hz0]
        exact hne
      · simp only [hm]
        exact or_mod_ne_zero _ _ hmask hne
    · rw [set_other _ _ _ _ heq] at hsome
      exact hinv k status hsome hlayout
  · intro hsep hinv k status hsome
    rw [hset] at hsome
    by_cases heq : k = texture
    · subst heq
      rw [set_self] at hsome
      have hst := Option.some.inj hsome
      subst hst
      rcases hcases with hm | hm | ⟨tracked, htracked, hn, hm⟩
      · simp only [hm]
        exact hzero
      · simp only [hm, hz0]
        exact hzero
      · simp only [hm]
        have hsame : env.isSameLayout tracked.layout newLayout k = true := by
          simp only [needsTransition, Bool.or_eq_false_iff, Bool.not_eq_false'] at hn
          exact hn.1
        have hiff := hsep _ _ _ hsame
        by_cases hL : newLayout = Layout.Texture ∨ newLayout = Layout.Uav
        · have hne : stageMask ≠ 0 := by
            intro hz
            have := hzero.mp hz
            rcases hL with hl | hl
            · exact this.1 hl
            · exact this.2 hl
          constructor
          · intro hz
            exact absurd hz (or_mod_ne_zero _ _ hmask hne)
          · rintro ⟨hT, hU⟩
            rcases hL with hl | hl
            · exact absurd hl hT
            · exact absurd hl hU
        · have hL' : newLayout ≠ Layout.Texture ∧ newLayout ≠ Layout.Uav :=
            ⟨fun hl => hL (Or.inl hl), fun hl => hL (Or.inr hl)⟩
          have hS : stageMask = 0 := hzero.mpr hL'
          have hT : tracked.layout ≠ Layout.Texture ∧ tracked.layout ≠ Layout.Uav := by
            constructor
            · intro hl
              exact hL (hiff.mp (Or.inl hl))
            · intro hl
              exact hL (hiff.mp (Or.inr hl))
          have hM : tracked.stageMask = 0 := (hinv k tracked htracked).mpr hT
          constructor
          · intro _
            exact hL'
          · intro _
            rw [hM, hS]
            rfl
    · rw [set_other _ _ _ _ heq] at hsome
      exact hinv k status hsome

/-- C17, as stated, fails: resolving buffer 3 with `Read` and stage mask 1 on a new
solver passes the assertion of the buffer overload and leaves the entry
`Undefined`, `Read`, 1, whose layout is neither `Texture` nor `Uav` while its stage
mask is not 0. -/
theorem buffer_stageMask_not_zero :
    ¬ ∀ self : BarrierSolver, Reachable Call.notAssumeTransitions self →
        ∀ k status, self.mResourceStatus k = some status →
          (status.stageMask = 0 ↔
            (status.layout ≠ Layout.Texture ∧ status.layout ≠ Layout.Uav)) := by
  intro h
  have h1 := h
    { mResourceStatus := BarrierSolver.new.mResourceStatus.set 3
        { layout := Layout.Undefined, access := ResourceAccess.Read, stageMask := 1 },
      mCopyStateTextures := [] }
    (Reachable.returned (Call.resolveBuffer 3 ResourceAccess.Read 1) BarrierSolver.new _
      [] [] Reachable.new trivial rfl)
    3 { layout := Layout.Undefined, access := ResourceAccess.Read, stageMask := 1 } rfl
  revert h1
  decide

/-- C17, amended: in every solver reached from a new one by calls of the texture
overload of `resolveTransition` with stage masks of 8 bits, of
`resetCopyLayoutsOnly` and of `reset`, whose assertions all hold, every entry whose
layout is `Texture` or `Uav` has a stage mask that is not 0; and when in addition
the backend never holds a layout among `Texture` and `Uav` to be the same as a
layout outside them, every entry has stage mask 0 if and only if its layout is
neither `Texture` nor `Uav`. -/
theorem stageMask_invariant (self : BarrierSolver) :
    (Reachable Call.textureOrReset self →
      ∀ k status, self.mResourceStatus k = some status →
        (status.layout = Layout.Texture ∨ status.layout = Layout.Uav) →
        status.stageMask ≠ 0) ∧
    (Reachable (fun call => call.textureOrReset ∧
        ∀ env, call.env? = some env → env.separatesStageLayouts) self →
      ∀ k status, self.mResourceStatus k = some status →
        (status.stageMask = 0 ↔
          (status.layout ≠ Layout.Texture ∧ status.layout ≠ Layout.Uav))) := by
  constructor
  · intro hreach
    refine reachable_invariant Call.textureOrReset
      (fun s => ∀ k status, s.mResourceStatus k = some status →
        (status.layout = Layout.Texture ∨ status.layout = Layout.Uav) →
        status.stageMask ≠ 0)
      (fun k status hsome => by cases hsome) ?_ self hreach
    intro call s s1 log hallowed hP hrun
    cases call with
    | resolveTexture env texture newLayout access stageMask =>
      exact (stageMask_step env s s1 log texture newLayout access stageMask hallowed
        hrun).1 hP
    | resolveBuffer bufferRes access stageMask =>
      exact absurd hallowed (by simp [Call.textureOrReset])
    | assumeTransition texture newLayout access stageMask =>
      exact absurd hallowed (by simp [Call.textureOrReset])
    | assumeTransitions resourceStatus =>
      exact absurd hallowed (by simp [Call.textureOrReset])
    | resetCopyLayoutsOnly env =>
      exact (resets_preserve env _
        (fun a b l t ha hb => (stageMask_step env a b l t _ _ 0 (by decide) hb).1 ha)
        (fun a ha => ha) (fun k status hsome => by cases hsome) s s1 log hP).1 hrun
    | reset env =>
      exact (resets_preserve env _
        (fun a b l t ha hb => (stageMask_step env a b l t _ _ 0 (by decide) hb).1 ha)
        (fun a ha => ha) (fun k status hsome => by cases hsome) s s1 log hP).2 hrun
  · intro hreach
    refine reachable_invariant _
      (fun s => ∀ k status, s.mResourceStatus k = some status →
        (status.stageMask = 0 ↔
          (status.layout ≠ Layout.Texture ∧ status.layout ≠ Layout.Uav)))
      (fun k status hsome => by cases hsome) ?_ self hreach
    intro call s s1 log hallowed hP hrun
    obtain ⟨hkind, hsep⟩ := hallowed
    cases call with
    | resolveTexture env texture newLayout access stageMask =>
      exact (stageMask_step env s s1 log texture newLayout access stageMask hkind
        hrun).2 (hsep env rfl) hP
    | resolveBuffer bufferRes access stageMask =>
      exact absurd hkind (by simp [Call.textureOrReset])
    | assumeTransition texture newLayout access stageMask =>
      exact absurd hkind (by simp [Call.textureOrReset])
    | assumeTransitions resourceStatus =>
      exact absurd hkind (by simp [Call.textureOrReset])
    | resetCopyLayoutsOnly env =>
      exact (resets_preserve env _
        (fun a b l t ha hb =>
          (stageMask_step env a b l t _ _ 0 (by decide) hb).2 (hsep env rfl) ha)
        (fun a ha => ha) (fun k status hsome => by cases hsome) s s1 log hP).1 hrun
    | reset env =>
      exact (resets_preserve env _
        (fun a b l t ha hb =>
          (stageMask_step env a b l t _ _ 0 (by decide) hb).2 (hsep env rfl) ha)
        (fun a ha => ha) (fun k status hsome => by cases hsome) s s1 log hP).2 hrun

theorem plainEnv_separates : plainEnv.separatesStageLayouts := by
  intro a b texture h
  have hab : a = b := by simpa [plainEnv] using h
  subst hab
  rfl

theorem stageMask_invariant_witness :
    ∀ k status, (BarrierSolver.new.mResourceStatus.set 7
        { layout := Layout.Uav, access := ResourceAccess.Write, stageMask := 2 }) k =
        some status →
      (status.stageMask = 0 ↔
        (status.layout ≠ Layout.Texture ∧ status.layout ≠ Layout.Uav)) :=
  (stageMask_invariant
    { mResourceStatus := BarrierSolver.new.mResourceStatus.set 7
        { layout := Layout.Uav, access := ResourceAccess.Write, stageMask := 2 },
      mCopyStateTextures := [] }).2
    (Reachable.returned
      (Call.resolveTexture plainEnv 7 Layout.Uav ResourceAccess.Write 2)
      BarrierSolver.new _ [] _ Reachable.new
      ⟨by simp [Call.textureOrReset], fun env henv => by
        have hp : plainEnv = env := Option.some.inj henv
        subst hp
        exact plainEnv_separates⟩
      rfl)

end BarrierSolver

end Ogre
